import Mathlib

/-!
Verification of the projection engine `compute_projection` in
`finance/agents.py` of the longevity-backend repository.

The engine is shallowly embedded: Python floats become elements of a linear
ordered field `K` (instantiated with `ℝ` for the claims, so that the float
exponentiation `(1+r) ** (1/12)` of `_ann_to_monthly` can be modelled by the
real power function), Python dicts with string keys become association lists
with Python's insertion/update semantics, and the simulation loop with its
`break` becomes a fuel-indexed tail recursion whose fuel is `months_total`.
-/

namespace Longevity

/-- Association-list read mirroring a Python dict lookup (first matching key). -/
def lookupKV {α : Type} : List (String × α) → String → Option α
  | [], _ => none
  | (k, v) :: t, q => if k = q then some v else lookupKV t q

/-- Python dict assignment `d[q] = v`: update the value in place if the key
exists, otherwise append the new key at the end (insertion order). -/
def pyInsert {α : Type} : List (String × α) → String → α → List (String × α)
  | [], q, v => [(q, v)]
  | (k, w) :: t, q, v => if k = q then (k, v) :: t else (k, w) :: pyInsert t q v

/-- Python dict comprehension over a list of key/value pairs: first occurrence
fixes the position of a key, a later duplicate overwrites the value. -/
def pyDict {α : Type} (l : List (String × α)) : List (String × α) :=
  l.foldl (fun acc kv => pyInsert acc kv.1 kv.2) []

variable {K : Type} [LinearOrderedField K]

/-- Python `sum(by_asset.values())`. -/
def totalBalance (l : List (String × K)) : K := (l.map Prod.snd).sum

/-- The module-level `ASSET_KEY_TO_RETURN` table of `finance/agents.py`. -/
def ASSET_KEY_TO_RETURN : List (String × String) :=
  [("equity", "equityReturnAnnualPct"), ("bond", "bondReturnAnnualPct"),
   ("cash", "cashReturnAnnualPct"), ("alt", "altReturnAnnualPct")]

/-- The `assumptions` dict of the payload.  The four per-class annual return
keys may be absent (the code reads them with `assumptions.get(key, 0.0)`);
`swrPct` is read unconditionally, `rebalanceFrequencyMonths` defaults to 12. -/
structure Assumptions (K : Type) where
  equityReturnAnnualPct : Option K
  bondReturnAnnualPct : Option K
  cashReturnAnnualPct : Option K
  altReturnAnnualPct : Option K
  swrPct : K
  rebalanceFrequencyMonths : Option ℤ
  deriving Repr

/-- Reading one of the four return keys from the `assumptions` dict.  Any
other key is absent (the engine reads only these four via the table). -/
def assumptionsGet (a : Assumptions K) : String → Option K
  | "equityReturnAnnualPct" => a.equityReturnAnnualPct
  | "bondReturnAnnualPct" => a.bondReturnAnnualPct
  | "cashReturnAnnualPct" => a.cashReturnAnnualPct
  | "altReturnAnnualPct" => a.altReturnAnnualPct
  | _ => none

/-- The `args` payload of `compute_projection`.  Fields read with
`args.get(...)` in the source are `Option`s here; required fields are plain. -/
structure Args (K : Type) where
  currentAge : ℤ
  targetRetirementAge : ℤ
  startCalendarYear : Option ℤ
  horizonYears : Option ℤ
  lifeExpectancyAge : Option ℤ
  includeSchedule : Option Bool
  scheduleGranularity : Option String
  stopWhenDepleted : Option Bool
  monthlyContributions : K
  monthlyExpenses : Option K
  portfolioBreakdown : List (String × K)
  assumptions : Assumptions K

/-- One entry of `results`.  A monthly record carries all fields; a yearly
record omits `monthIndex`, `calendarMonth`, `contributions`, `withdrawals`
(the corresponding Python dict simply has no such keys), hence the `Option`s. -/
structure PeriodRecord (K : Type) where
  yearIndex : ℤ
  monthIndex : Option ℤ
  calendarYear : ℤ
  calendarMonth : Option ℤ
  age : ℤ
  phase : String
  contributions : Option K
  withdrawals : Option K
  endBalance : K

/-- The `metrics` part of the output. -/
structure Metrics (K : Type) where
  portfolioAtRetirement : Option K
  sustainableMonthlySpend : Option K
  estimatedExhaustionAge : Option ℤ
  successProbabilityPct : Option K

/-- The full output `{"metrics": ..., "projectionResults": ...}`. -/
structure Result (K : Type) where
  metrics : Metrics K
  projectionResults : List (PeriodRecord K)

/-- The run configuration fixed before the loop starts (lines 25-61 of
`agents.py`): resolved defaults, per-class monthly rates, frozen target
weights and the initial balance dict. -/
structure Config (K : Type) where
  currentAge : ℤ
  targetAge : ℤ
  startYear : ℤ
  monthsTotal : ℤ
  retirementM : ℤ
  includeSchedule : Bool
  granularity : String
  stopWhenDepleted : Bool
  monthlyContrib : K
  monthlyExpenses : K
  swr : K
  rebalanceEvery : ℤ
  assetMret : List (String × K)
  targetWeights : List (String × K)
  initByAsset : List (String × K)

/-- The mutable loop state: the balance dict, the accumulated `results`
list, the running `age`, the lazily frozen `sustainable` value, the
`estimated_exhaustion_age`, and whether the loop has executed `break`. -/
structure SimState (K : Type) where
  byAsset : List (String × K)
  results : List (PeriodRecord K)
  age : ℤ
  sustainable : Option K
  exhaustionAge : Option ℤ
  stopped : Bool

/-- The `asset_mret` construction loop (lines 41-45): for each breakdown
entry, `ASSET_KEY_TO_RETURN[k]` raises a `KeyError` for an unknown asset
class, while a known class whose return key is absent from `assumptions`
silently defaults to an annual return of `0.0`. -/
def buildAssetMret (annToMonthly : K → K) (a : Assumptions K) :
    List (String × K) → List (String × K) → Except String (List (String × K))
  | acc, [] => .ok acc
  | acc, (k, _) :: rest =>
    match lookupKV ASSET_KEY_TO_RETURN k with
    | none => .error (String.append "KeyError: " k)
    | some rk =>
        buildAssetMret annToMonthly a
          (pyInsert acc k (annToMonthly ((assumptionsGet a rk).getD 0 / 100))) rest

/-- The nested `rebalance()` function (lines 51-58): zero every bucket if the
current total is nonpositive, otherwise assign `total * w` for every target
weight entry. -/
def rebalance (targetWeights byAsset : List (String × K)) : List (String × K) :=
  let total := totalBalance byAsset
  if total ≤ 0 then byAsset.map (fun kv => (kv.1, (0 : K)))
  else targetWeights.foldl (fun ba kw => pyInsert ba kw.1 (total * kw.2)) byAsset

/-- The per-period cash-flow block (lines 83-89): distribute the net flow by
each bucket's current share of the pre-flow total and clamp each bucket at 0
independently; skipped entirely when the pre-flow total is nonpositive. -/
def applyCashFlow (byAsset : List (String × K)) (contrib withdrawal : K) :
    List (String × K) :=
  let totalBefore := totalBalance byAsset
  if totalBefore > 0 then
    byAsset.map (fun kv =>
      max 0 (kv.2 + contrib * (kv.2 / totalBefore) - withdrawal * (kv.2 / totalBefore))
        |> fun b => (kv.1, b))
  else byAsset

/-- The growth block (lines 91-92): multiply every bucket by
`1 + asset_mret.get(k, 0.0)`. -/
def applyGrowth (assetMret byAsset : List (String × K)) : List (String × K) :=
  byAsset.map (fun kv => (kv.1, kv.2 * (1 + (lookupKV assetMret kv.1).getD 0)))

/-- The phase-dependent cash-flow amounts of period `m` (lines 73-81):
`(contribution, withdrawal, sustainable-after)`.  On first entry to the
retirement phase the sustainable withdrawal is computed from the balance at
that instant and frozen. -/
def contribWd (cfg : Config K) (st : SimState K) (m : ℕ) : K × K × Option K :=
  if (m : ℤ) < cfg.retirementM then (cfg.monthlyContrib, 0, st.sustainable)
  else
    let s :=
      match st.sustainable with
      | none => totalBalance st.byAsset * cfg.swr / 12
      | some v => v
    (0, if cfg.monthlyExpenses > 0 then cfg.monthlyExpenses else s, some s)

/-- The balance dict after the cash flow of period `m`. -/
def postCashFlow (cfg : Config K) (st : SimState K) (m : ℕ) : List (String × K) :=
  applyCashFlow st.byAsset (contribWd cfg st m).1 (contribWd cfg st m).2.1

/-- The balance dict after the cash flow and growth of period `m`. -/
def postGrowth (cfg : Config K) (st : SimState K) (m : ℕ) : List (String × K) :=
  applyGrowth cfg.assetMret (postCashFlow cfg st m)

/-- The `end_bal` of period `m` (line 94), computed before any rebalancing. -/
def endBalOf (cfg : Config K) (st : SimState K) (m : ℕ) : K :=
  totalBalance (postGrowth cfg st m)

/-- A full monthly schedule record (lines 104-116 and 122-134). -/
def monthlyRecord (cfg : Config K) (m : ℕ) (ageVal : ℤ)
    (contrib withdrawal endBal : K) : PeriodRecord K :=
  { yearIndex := (m : ℤ) / 12
    monthIndex := some ((m : ℤ) % 12 + 1)
    calendarYear := cfg.startYear + (m : ℤ) / 12
    calendarMonth := some ((m : ℤ) % 12 + 1)
    age := ageVal
    phase := if (m : ℤ) ≥ cfg.retirementM then "retirement" else "accumulation"
    contributions := some contrib
    withdrawals := some withdrawal
    endBalance := endBal }

/-- A yearly schedule record, emitted only at 12-month boundaries
(lines 136-146). -/
def yearlyRecord (cfg : Config K) (m : ℕ) (endBal : K) : PeriodRecord K :=
  let yi : ℤ := ((m : ℤ) + 1) / 12 - 1
  { yearIndex := yi
    monthIndex := none
    calendarYear := cfg.startYear + yi
    calendarMonth := none
    age := cfg.currentAge + yi
    phase := if ((m : ℤ) + 1) > cfg.retirementM then "retirement" else "accumulation"
    contributions := none
    withdrawals := none
    endBalance := endBal }

/-- The tail of a loop iteration that did not `break` (lines 119-149): append
the schedule record of the period, if any, and advance the running age at
12-month boundaries. -/
def recordAndAdvance (cfg : Config K) (st : SimState K) (m : ℕ) (sust : Option K)
    (exh : Option ℤ) (ba3 : List (String × K)) (endBal : K) : SimState K :=
  let recs :=
    if cfg.includeSchedule then
      if cfg.granularity = "monthly" then
        [monthlyRecord cfg m (cfg.currentAge + (m : ℤ) / 12)
          (contribWd cfg st m).1 (contribWd cfg st m).2.1 endBal]
      else if (m + 1) % 12 = 0 then [yearlyRecord cfg m endBal] else []
    else []
  { byAsset := ba3
    results := st.results ++ recs
    age := if (m + 1) % 12 = 0 then st.age + 1 else st.age
    sustainable := sust
    exhaustionAge := exh
    stopped := false }

/-- The balance dict carried into the next period (lines 96-97): the
post-growth balances, rebalanced when `rebalance_every` is nonzero and the
period number `m + 1` is a multiple of it. -/
def postRebalance (cfg : Config K) (st : SimState K) (m : ℕ) : List (String × K) :=
  if cfg.rebalanceEvery ≠ 0 ∧ ((m : ℤ) + 1) % cfg.rebalanceEvery = 0 then
    rebalance cfg.targetWeights (postGrowth cfg st m)
  else postGrowth cfg st m

/-- The state produced by the early-`break` branch of the exhaustion check
(lines 99-117): the exhaustion age is recorded, one final monthly record is
appended when the schedule is monthly, and the loop stops; the running age is
not incremented. -/
def stopState (cfg : Config K) (st : SimState K) (m : ℕ) : SimState K :=
  { byAsset := postRebalance cfg st m
    results := st.results ++
      (if cfg.includeSchedule ∧ cfg.granularity = "monthly" then
        [monthlyRecord cfg m st.age (contribWd cfg st m).1
          (contribWd cfg st m).2.1 (endBalOf cfg st m)]
      else [])
    age := st.age
    sustainable := (contribWd cfg st m).2.2
    exhaustionAge := some st.age
    stopped := true }

/-- One iteration of the simulation loop (lines 72-149): cash flow, growth,
optional rebalancing, exhaustion check with optional early `break`, and
schedule recording. -/
def step (cfg : Config K) (st : SimState K) (m : ℕ) : SimState K :=
  if endBalOf cfg st m ≤ 0 ∧ st.exhaustionAge = none then
    if cfg.stopWhenDepleted then stopState cfg st m
    else
      recordAndAdvance cfg st m (contribWd cfg st m).2.2 (some st.age)
        (postRebalance cfg st m) (endBalOf cfg st m)
  else
    recordAndAdvance cfg st m (contribWd cfg st m).2.2 st.exhaustionAge
      (postRebalance cfg st m) (endBalOf cfg st m)

/-- The `for m in range(months_total)` loop with its `break`, as a
fuel-indexed recursion; the fuel is initially `months_total`, so the loop
body runs for `m = 0, 1, ...` while `m < months_total` and no `break`
occurred. -/
def runLoop (cfg : Config K) : ℕ → ℕ → SimState K → SimState K
  | 0, _, st => st
  | fuel + 1, m, st =>
    if st.stopped then st
    else if (m : ℤ) < cfg.monthsTotal then runLoop cfg fuel (m + 1) (step cfg st m)
    else st

/-- The state right before the loop (lines 63-67). -/
def initState (cfg : Config K) : SimState K :=
  { byAsset := cfg.initByAsset
    results := []
    age := cfg.currentAge
    sustainable := none
    exhaustionAge := none
    stopped := false }

/-- The state after (at most) `n` loop iterations. -/
def stateAt (cfg : Config K) (n : ℕ) : SimState K :=
  runLoop cfg n 0 (initState cfg)

/-- The state after the whole loop. -/
def finalState (cfg : Config K) : SimState K :=
  stateAt cfg cfg.monthsTotal.toNat

/-- List indexing `results[i]` for a valid nonnegative index. -/
def listGetIdx {α : Type} : List α → ℕ → Option α
  | [], _ => none
  | a :: _, 0 => some a
  | _ :: t, n + 1 => listGetIdx t n

/-- The metrics block (lines 151-167). -/
def mkMetrics (cfg : Config K) (st : SimState K) : Metrics K :=
  let par : Option K :=
    if cfg.includeSchedule then
      if cfg.granularity = "monthly" then
        let idx : ℤ := max 0 (cfg.retirementM - 1)
        if idx < (st.results.length : ℤ) then
          (listGetIdx st.results idx.toNat).map (fun r => r.endBalance)
        else none
      else
        let yrsToRet : ℤ := max 0 (cfg.targetAge - cfg.currentAge) - 1
        if 0 ≤ yrsToRet ∧ yrsToRet < (st.results.length : ℤ) then
          (listGetIdx st.results yrsToRet.toNat).map (fun r => r.endBalance)
        else none
    else none
  { portfolioAtRetirement := par
    sustainableMonthlySpend := st.sustainable
    estimatedExhaustionAge := st.exhaustionAge
    successProbabilityPct := none }

/-- Resolution of the run configuration from the raw payload (lines 25-61):
defaults, the `asset_mret` dict (which may raise), the balance dict, the
pinned divisor `sum(by_asset.values()) or 1.0` and the frozen target
weights, `months_total` and the retirement month index. -/
def cfgOf (annToMonthly : K → K) (args : Args K) : Except String (Config K) :=
  let currentAge := args.currentAge
  let targetAge := args.targetRetirementAge
  let horizonYears := args.horizonYears.getD (max 0 (targetAge - currentAge))
  let lifeExpectancyAge := args.lifeExpectancyAge.getD (currentAge + horizonYears)
  match buildAssetMret annToMonthly args.assumptions [] args.portfolioBreakdown with
  | .error e => .error e
  | .ok assetMret =>
    let byAsset := pyDict args.portfolioBreakdown
    let totalInit := if totalBalance byAsset = 0 then 1 else totalBalance byAsset
    .ok
      { currentAge := currentAge
        targetAge := targetAge
        startYear := args.startCalendarYear.getD 2025
        monthsTotal := min ((lifeExpectancyAge - currentAge) * 12) (horizonYears * 12)
        retirementM := max 0 ((targetAge - currentAge) * 12)
        includeSchedule := args.includeSchedule.getD true
        granularity := args.scheduleGranularity.getD "monthly"
        stopWhenDepleted := args.stopWhenDepleted.getD true
        monthlyContrib := args.monthlyContributions
        monthlyExpenses := args.monthlyExpenses.getD 0
        swr := args.assumptions.swrPct / 100
        rebalanceEvery := args.assumptions.rebalanceFrequencyMonths.getD 12
        assetMret := assetMret
        targetWeights := byAsset.map (fun kv => (kv.1, kv.2 / totalInit))
        initByAsset := byAsset }

/-- The whole of `compute_projection`, parametric in the annual-to-monthly
rate conversion. -/
def compute_projection (annToMonthly : K → K) (args : Args K) :
    Except String (Result K) :=
  (cfgOf annToMonthly args).map fun cfg =>
    { metrics := mkMetrics cfg (finalState cfg)
      projectionResults := (finalState cfg).results }

/-- The `_ann_to_monthly` helper (lines 20-21), over the reals. -/
noncomputable def ann_to_monthly (r : ℝ) : ℝ := (1 + r) ^ ((1 : ℝ) / 12) - 1

/-- `compute_projection` as shipped: real-valued, with the real power
function for the annual-to-monthly conversion. -/
noncomputable def realCompute : Args ℝ → Except String (Result ℝ) :=
  compute_projection ann_to_monthly

/-- The configuration resolution of the shipped engine. -/
noncomputable def realCfgOf : Args ℝ → Except String (Config ℝ) :=
  cfgOf ann_to_monthly

/-! ### Association-list lemmas -/

@[simp] lemma totalBalance_nil : totalBalance ([] : List (String × K)) = 0 := rfl

@[simp] lemma totalBalance_cons (kv : String × K) (t : List (String × K)) :
    totalBalance (kv :: t) = kv.2 + totalBalance t := by
  simp [totalBalance]

lemma lookupKV_map {α β : Type} (f : String → α → β) :
    ∀ (l : List (String × α)) (q : String),
      lookupKV (l.map fun kv => (kv.1, f kv.1 kv.2)) q = (lookupKV l q).map (f q)
  | [], _ => rfl
  | (k, v) :: t, q => by
    by_cases h : k = q
    · subst h; simp [lookupKV]
    · simp [lookupKV, h, lookupKV_map f t q]

lemma lookupKV_mem {α : Type} :
    ∀ {l : List (String × α)} {q : String} {v : α},
      lookupKV l q = some v → (q, v) ∈ l
  | [], _, _, h => by simp [lookupKV] at h
  | (k, w) :: t, q, v, h => by
    by_cases hk : k = q
    · subst hk
      simp [lookupKV] at h
      simp [h]
    · simp [lookupKV, hk] at h
      exact List.mem_cons_of_mem _ (lookupKV_mem h)

lemma mem_lookupKV_of_nodup {α : Type} :
    ∀ {l : List (String × α)}, ((l.map Prod.fst).Nodup) →
      ∀ {q : String} {v : α}, (q, v) ∈ l → lookupKV l q = some v
  | [], _, _, _, h => by simp at h
  | (k, w) :: t, hnd, q, v, h => by
    have hknotin : k ∉ t.map Prod.fst := (List.nodup_cons.mp (by simpa using hnd)).1
    rcases List.mem_cons.mp h with h1 | h1
    · rw [show q = k from congrArg Prod.fst h1, show v = w from congrArg Prod.snd h1]
      simp [lookupKV]
    · have hk : ¬(k = q) := by
        intro hkq
        subst hkq
        exact hknotin (List.mem_map.mpr ⟨(k, v), h1, rfl⟩)
      simp only [lookupKV, if_neg hk]
      exact mem_lookupKV_of_nodup (List.nodup_cons.mp (by simpa using hnd)).2 h1

lemma pyInsert_map_fst {α : Type} :
    ∀ (l : List (String × α)) (q : String) (v : α),
      (pyInsert l q v).map Prod.fst =
        if q ∈ l.map Prod.fst then l.map Prod.fst else l.map Prod.fst ++ [q]
  | [], q, v => by simp [pyInsert]
  | (k, w) :: t, q, v => by
    by_cases h : k = q
    · subst h; simp [pyInsert]
    · have hne : q ≠ k := fun hq => h hq.symm
      simp only [pyInsert, if_neg h, List.map_cons, List.mem_cons]
      rw [pyInsert_map_fst t q v]
      by_cases hq : q ∈ t.map Prod.fst <;> simp [hq, hne]

lemma pyInsert_nodup {α : Type} {l : List (String × α)}
    (h : (l.map Prod.fst).Nodup) (q : String) (v : α) :
    ((pyInsert l q v).map Prod.fst).Nodup := by
  rw [pyInsert_map_fst]
  by_cases hq : q ∈ l.map Prod.fst
  · simpa [hq]
  · simp only [hq, if_false]
    simp [List.nodup_append, h, hq]

lemma pyInsert_val {α : Type} {P : α → Prop} :
    ∀ {l : List (String × α)}, (∀ kv ∈ l, P kv.2) →
      ∀ {q : String} {v : α}, P v → ∀ kv ∈ pyInsert l q v, P kv.2
  | [], _, q, v, hv, kv, hkv => by
    simp [pyInsert] at hkv
    simpa [hkv]
  | (k, w) :: t, hl, q, v, hv, kv, hkv => by
    by_cases h : k = q
    · subst h
      simp only [pyInsert, if_pos rfl] at hkv
      rcases List.mem_cons.mp hkv with h1 | h1
      · simpa [h1]
      · exact hl kv (List.mem_cons_of_mem _ h1)
    · simp only [pyInsert, if_neg h] at hkv
      rcases List.mem_cons.mp hkv with h1 | h1
      · exact h1 ▸ hl (k, w) (by simp)
      · exact pyInsert_val (fun kv2 h2 => hl kv2 (List.mem_cons_of_mem _ h2)) hv kv h1

lemma foldl_pyInsert_val {α β : Type} {P : α → Prop} (f : String × β → α) :
    ∀ (l : List (String × β)) (acc : List (String × α)),
      (∀ kv ∈ acc, P kv.2) → (∀ kw ∈ l, P (f kw)) →
      ∀ kv ∈ l.foldl (fun ba kw => pyInsert ba kw.1 (f kw)) acc, P kv.2
  | [], acc, hacc, _, kv, hkv => hacc kv hkv
  | kw :: t, acc, hacc, hl, kv, hkv =>
    foldl_pyInsert_val f t _ (pyInsert_val hacc (hl kw (by simp)))
      (fun kw2 h2 => hl kw2 (List.mem_cons_of_mem _ h2)) kv hkv

lemma pyDict_val {α : Type} {P : α → Prop} {l : List (String × α)}
    (h : ∀ kv ∈ l, P kv.2) : ∀ kv ∈ pyDict l, P kv.2 :=
  foldl_pyInsert_val Prod.snd l [] (by simp) h

lemma foldl_pyInsert_nodup {α β : Type} (f : String × β → α) :
    ∀ (l : List (String × β)) (acc : List (String × α)),
      ((acc.map Prod.fst).Nodup) →
      (((l.foldl (fun ba kw => pyInsert ba kw.1 (f kw)) acc).map Prod.fst).Nodup)
  | [], _, h => h
  | kw :: t, acc, h => foldl_pyInsert_nodup f t _ (pyInsert_nodup h kw.1 (f kw))

lemma pyDict_nodup {α : Type} (l : List (String × α)) :
    ((pyDict l).map Prod.fst).Nodup :=
  foldl_pyInsert_nodup Prod.snd l [] (by simp)

/-! ### Balance-sum lemmas -/

lemma totalBalance_map (l : List (String × K)) (f : String × K → K) :
    totalBalance (l.map fun kv => (kv.1, f kv)) = (l.map f).sum := by
  induction l with
  | nil => simp
  | cons kv t ih => simpa [totalBalance] using congrArg (kv.2 + ·) (by simpa [totalBalance] using ih)

lemma totalBalance_nonneg {l : List (String × K)} (h : ∀ kv ∈ l, 0 ≤ kv.2) :
    0 ≤ totalBalance l := by
  induction l with
  | nil => simp
  | cons kv t ih =>
    simp only [totalBalance_cons]
    exact add_nonneg (h kv (by simp))
      (ih fun kv2 h2 => h kv2 (List.mem_cons_of_mem _ h2))

lemma totalBalance_eq_zero {l : List (String × K)} (h : ∀ kv ∈ l, kv.2 = 0) :
    totalBalance l = 0 := by
  induction l with
  | nil => simp
  | cons kv t ih =>
    simp only [totalBalance_cons, h kv (by simp), zero_add]
    exact ih fun kv2 h2 => h kv2 (List.mem_cons_of_mem _ h2)

lemma totalBalance_map_div (l : List (String × K)) (c : K) :
    totalBalance (l.map fun kv => (kv.1, kv.2 / c)) = totalBalance l / c := by
  induction l with
  | nil => simp
  | cons kv t ih => simp [ih, add_div]

lemma totalBalance_map_mul (l : List (String × K)) (c : K) :
    totalBalance (l.map fun kw => (kw.1, c * kw.2)) = c * totalBalance l := by
  induction l with
  | nil => simp
  | cons kv t ih => simp [ih, mul_add]

@[simp] lemma totalBalance_map_zero (l : List (String × K)) :
    totalBalance (l.map fun kv => (kv.1, (0 : K))) = 0 := by
  induction l with
  | nil => simp
  | cons kv t ih => simp [ih]

/-! ### Loop lemmas -/

lemma runLoop_stopped (cfg : Config K) :
    ∀ (fuel m : ℕ) {st : SimState K}, st.stopped = true → runLoop cfg fuel m st = st
  | 0, _, _, _ => rfl
  | fuel + 1, m, st, h => by simp [runLoop, h]

lemma runLoop_exit (cfg : Config K) :
    ∀ (fuel m : ℕ) (st : SimState K),
      ¬((m : ℤ) < cfg.monthsTotal) → runLoop cfg fuel m st = st
  | 0, _, _, _ => rfl
  | fuel + 1, m, st, h => by
    by_cases hs : st.stopped <;> simp [runLoop, hs, h]

lemma runLoop_add (cfg : Config K) :
    ∀ (f1 f2 m : ℕ) (st : SimState K),
      runLoop cfg (f1 + f2) m st = runLoop cfg f2 (m + f1) (runLoop cfg f1 m st) := by
  intro f1
  induction f1 with
  | zero => intro f2 m st; simp [runLoop]
  | succ f1 ih =>
    intro f2 m st
    rw [show f1 + 1 + f2 = (f1 + f2) + 1 from by omega]
    by_cases hs : st.stopped = true
    · rw [runLoop_stopped cfg _ _ hs, runLoop_stopped cfg _ _ hs,
        runLoop_stopped cfg _ _ hs]
    · by_cases hm : (m : ℤ) < cfg.monthsTotal
      · have h1 : runLoop cfg ((f1 + f2) + 1) m st
            = runLoop cfg (f1 + f2) (m + 1) (step cfg st m) := by
          simp [runLoop, hs, hm]
        have h2 : runLoop cfg (f1 + 1) m st
            = runLoop cfg f1 (m + 1) (step cfg st m) := by
          simp [runLoop, hs, hm]
        rw [h1, ih f2 (m + 1) (step cfg st m), h2]
        congr 1
        omega
      · have hm2 : ¬(((m + (f1 + 1) : ℕ) : ℤ) < cfg.monthsTotal) := by
          push_cast
          push_cast at hm
          omega
        rw [runLoop_exit cfg _ _ _ hm, runLoop_exit cfg _ _ _ hm,
          runLoop_exit cfg _ _ _ hm2]

lemma runLoop_inv (cfg : Config K) (P : SimState K → Prop)
    (hstep : ∀ st m, P st → P (step cfg st m)) :
    ∀ (fuel m : ℕ) (st : SimState K), P st → P (runLoop cfg fuel m st)
  | 0, _, _, h => h
  | fuel + 1, m, st, h => by
    rw [runLoop]
    split
    · exact h
    · split
      · exact runLoop_inv cfg P hstep fuel (m + 1) _ (hstep st m h)
      · exact h

lemma stateAt_zero (cfg : Config K) : stateAt cfg 0 = initState cfg := rfl

lemma stateAt_succ (cfg : Config K) (n : ℕ) :
    stateAt cfg (n + 1) =
      if (stateAt cfg n).stopped then stateAt cfg n
      else if (n : ℤ) < cfg.monthsTotal then step cfg (stateAt cfg n) n
      else stateAt cfg n := by
  have h := runLoop_add cfg n 1 0 (initState cfg)
  simp only [stateAt]
  rw [show n + 1 = n + 1 from rfl, h]
  simp [runLoop, Nat.zero_add]

lemma stateAt_inv (cfg : Config K) (P : SimState K → Prop)
    (hstep : ∀ st m, P st → P (step cfg st m))
    (hinit : P (initState cfg)) (n : ℕ) : P (stateAt cfg n) :=
  runLoop_inv cfg P hstep n 0 _ hinit

/-! ### Step projection lemmas -/

lemma step_byAsset (cfg : Config K) (st : SimState K) (m : ℕ) :
    (step cfg st m).byAsset = postRebalance cfg st m := by
  unfold step
  split
  · split <;> rfl
  · rfl

lemma step_sustainable (cfg : Config K) (st : SimState K) (m : ℕ) :
    (step cfg st m).sustainable = (contribWd cfg st m).2.2 := by
  unfold step
  split
  · split <;> rfl
  · rfl

lemma step_exhaustionAge (cfg : Config K) (st : SimState K) (m : ℕ) :
    (step cfg st m).exhaustionAge =
      if endBalOf cfg st m ≤ 0 ∧ st.exhaustionAge = none then some st.age
      else st.exhaustionAge := by
  by_cases h : endBalOf cfg st m ≤ 0 ∧ st.exhaustionAge = none
  · rw [if_pos h]
    unfold step
    rw [if_pos h]
    split <;> rfl
  · rw [if_neg h]
    unfold step
    rw [if_neg h]
    rfl

lemma step_results (cfg : Config K) (st : SimState K) (m : ℕ) :
    ∃ tl, (step cfg st m).results = st.results ++ tl := by
  unfold step stopState recordAndAdvance
  split
  · split
    · exact ⟨_, rfl⟩
    · exact ⟨_, rfl⟩
  · exact ⟨_, rfl⟩

lemma runLoop_results (cfg : Config K) :
    ∀ (fuel m : ℕ) (st : SimState K),
      ∃ tl, (runLoop cfg fuel m st).results = st.results ++ tl
  | 0, _, st => ⟨[], by simp [runLoop]⟩
  | fuel + 1, m, st => by
    rw [runLoop]
    split
    · exact ⟨[], by simp⟩
    · split
      · obtain ⟨t1, h1⟩ := step_results cfg st m
        obtain ⟨t2, h2⟩ := runLoop_results cfg fuel (m + 1) (step cfg st m)
        exact ⟨t1 ++ t2, by rw [h2, h1, List.append_assoc]⟩
      · exact ⟨[], by simp⟩

/-! ### Freeze lemmas: the sustainable withdrawal and the exhaustion age are
never overwritten once set -/

lemma contribWd_sust_some (cfg : Config K) (st : SimState K) (m : ℕ) {v : K}
    (h : st.sustainable = some v) : (contribWd cfg st m).2.2 = some v := by
  unfold contribWd
  split
  · exact h
  · simp [h]

lemma step_sustainable_some (cfg : Config K) (st : SimState K) (m : ℕ) {v : K}
    (h : st.sustainable = some v) : (step cfg st m).sustainable = some v := by
  rw [step_sustainable]
  exact contribWd_sust_some cfg st m h

lemma runLoop_sustainable_some (cfg : Config K) (fuel m : ℕ) (st : SimState K)
    {v : K} (h : st.sustainable = some v) :
    (runLoop cfg fuel m st).sustainable = some v :=
  runLoop_inv cfg (fun st2 => st2.sustainable = some v)
    (fun st2 m2 h2 => step_sustainable_some cfg st2 m2 h2) fuel m st h

lemma step_exhaustion_some (cfg : Config K) (st : SimState K) (m : ℕ) {a : ℤ}
    (h : st.exhaustionAge = some a) : (step cfg st m).exhaustionAge = some a := by
  rw [step_exhaustionAge, if_neg (by simp [h]), h]

lemma runLoop_exhaustion_some (cfg : Config K) (fuel m : ℕ) (st : SimState K)
    {a : ℤ} (h : st.exhaustionAge = some a) :
    (runLoop cfg fuel m st).exhaustionAge = some a :=
  runLoop_inv cfg (fun st2 => st2.exhaustionAge = some a)
    (fun st2 m2 h2 => step_exhaustion_some cfg st2 m2 h2) fuel m st h

/-! ### The sustainable withdrawal before and at retirement entry -/

lemma step_sustainable_none (cfg : Config K) (st : SimState K) (m : ℕ)
    (hm : (m : ℤ) < cfg.retirementM) (h : st.sustainable = none) :
    (step cfg st m).sustainable = none := by
  rw [step_sustainable]
  unfold contribWd
  rw [if_pos hm]
  exact h

lemma runLoop_sustainable_none (cfg : Config K) :
    ∀ (fuel m : ℕ) (st : SimState K), st.sustainable = none →
      (m : ℤ) + fuel ≤ cfg.retirementM →
      (runLoop cfg fuel m st).sustainable = none
  | 0, _, _, h, _ => h
  | fuel + 1, m, st, h, hle => by
    rw [runLoop]
    split
    · exact h
    · split
      · refine runLoop_sustainable_none cfg fuel (m + 1) _
          (step_sustainable_none cfg st m (by push_cast at hle ⊢; omega) h) ?_
        push_cast at hle ⊢
        omega
      · exact h

lemma step_sets_sustainable (cfg : Config K) (st : SimState K) (m : ℕ)
    (hm : ¬((m : ℤ) < cfg.retirementM)) (h : st.sustainable = none) :
    (step cfg st m).sustainable
      = some (totalBalance st.byAsset * cfg.swr / 12) := by
  rw [step_sustainable]
  unfold contribWd
  rw [if_neg hm]
  simp [h]

/-! ### Nonnegativity of balances through the loop blocks -/

lemma applyCashFlow_eq (l : List (String × K)) (c w : K) :
    applyCashFlow l c w =
      if totalBalance l > 0 then
        l.map fun kv =>
          (kv.1, max 0 (kv.2 + c * (kv.2 / totalBalance l)
            - w * (kv.2 / totalBalance l)))
      else l := rfl

lemma applyCashFlow_nonneg {l : List (String × K)} {c w : K}
    (h0 : ∀ kv ∈ l, 0 ≤ kv.2) : ∀ kv ∈ applyCashFlow l c w, 0 ≤ kv.2 := by
  intro kv hkv
  rw [applyCashFlow_eq] at hkv
  split at hkv
  · simp only [List.mem_map] at hkv
    obtain ⟨kw, _, rfl⟩ := hkv
    simpa using le_max_left 0 _
  · exact h0 kv hkv

lemma applyGrowth_nonneg {mret l : List (String × K)}
    (h0 : ∀ kv ∈ l, 0 ≤ kv.2)
    (hf : ∀ k, 0 ≤ 1 + (lookupKV mret k).getD 0) :
    ∀ kv ∈ applyGrowth mret l, 0 ≤ kv.2 := by
  intro kv hkv
  simp only [applyGrowth, List.mem_map] at hkv
  obtain ⟨kw, hkw, rfl⟩ := hkv
  exact mul_nonneg (h0 kw hkw) (hf kw.1)

lemma totalBalance_applyGrowth_pos {mret : List (String × K)}
    (hf : ∀ k, 0 < 1 + (lookupKV mret k).getD 0) :
    ∀ {l : List (String × K)}, (∀ kv ∈ l, 0 ≤ kv.2) → 0 < totalBalance l →
      0 < totalBalance (applyGrowth mret l)
  | [], _, hpos => by simp at hpos
  | kv :: t, h0, hpos => by
    have h0t : ∀ kv2 ∈ t, 0 ≤ kv2.2 :=
      fun kv2 h2 => h0 kv2 (List.mem_cons_of_mem _ h2)
    have hgt : applyGrowth mret (kv :: t)
        = (kv.1, kv.2 * (1 + (lookupKV mret kv.1).getD 0)) :: applyGrowth mret t := rfl
    rw [hgt, totalBalance_cons]
    rcases lt_or_le 0 kv.2 with h | h
    · exact add_pos_of_pos_of_nonneg (mul_pos h (hf kv.1))
        (totalBalance_nonneg (applyGrowth_nonneg h0t fun k => (hf k).le))
    · have hz : kv.2 = 0 := le_antisymm h (h0 kv (by simp))
      rw [totalBalance_cons, hz, zero_add] at hpos
      simp only [hz, zero_mul, zero_add]
      exact totalBalance_applyGrowth_pos hf h0t hpos

lemma totalBalance_applyCashFlow_ge {l : List (String × K)} {c : K}
    (h0 : ∀ kv ∈ l, 0 ≤ kv.2) (hc : 0 ≤ c) (hT : totalBalance l > 0) :
    totalBalance l ≤ totalBalance (applyCashFlow l c 0) := by
  rw [applyCashFlow_eq, if_pos hT, totalBalance_map]
  have hle : ∀ kv ∈ l, kv.2 ≤
      max 0 (kv.2 + c * (kv.2 / totalBalance l) - 0 * (kv.2 / totalBalance l)) := by
    intro kv hkv
    have h1 : 0 ≤ c * (kv.2 / totalBalance l) :=
      mul_nonneg hc (div_nonneg (h0 kv hkv) hT.le)
    refine le_trans (by linarith) (le_max_right 0 _)
  calc totalBalance l = (l.map fun kv => kv.2).sum := by simp [totalBalance]
    _ ≤ _ := List.sum_le_sum fun kv hkv => hle kv hkv

/-! ### Rebalancing characterization -/

lemma rebalance_nonpos {tw ba : List (String × K)} (h : totalBalance ba ≤ 0) :
    rebalance tw ba = ba.map fun kv => (kv.1, (0 : K)) := by
  unfold rebalance
  rw [if_pos h]

lemma foldl_pyInsert_skip {α : Type} (f : String × α → α) :
    ∀ (tw : List (String × α)) (k : String) (x : α) (ba : List (String × α)),
      (∀ kw ∈ tw, kw.1 ≠ k) →
      tw.foldl (fun b kw => pyInsert b kw.1 (f kw)) ((k, x) :: ba)
        = (k, x) :: tw.foldl (fun b kw => pyInsert b kw.1 (f kw)) ba
  | [], _, _, _, _ => rfl
  | kw :: t, k, x, ba, h => by
    have h1 : ¬(k = kw.1) := fun he => h kw (by simp) he.symm
    simp only [List.foldl_cons]
    rw [show pyInsert ((k, x) :: ba) kw.1 (f kw)
        = (k, x) :: pyInsert ba kw.1 (f kw) from by
      obtain ⟨kw1, kw2⟩ := kw
      simp [pyInsert, h1]]
    exact foldl_pyInsert_skip f t k x _
      fun kw2 h2 => h kw2 (List.mem_cons_of_mem _ h2)

lemma foldl_pyInsert_aligned {α : Type} (f : String × α → α) :
    ∀ (tw ba : List (String × α)),
      ba.map Prod.fst = tw.map Prod.fst → ((tw.map Prod.fst).Nodup) →
      tw.foldl (fun b kw => pyInsert b kw.1 (f kw)) ba
        = tw.map fun kw => (kw.1, f kw)
  | [], ba, hkeys, _ => by
    have hba : ba = [] := by
      have h2 : ba.map Prod.fst = [] := by simpa using hkeys
      exact List.map_eq_nil_iff.mp h2
    subst hba
    rfl
  | kw :: t, ba, hkeys, hnd => by
    obtain ⟨b0, ba2, rfl⟩ : ∃ b0 ba2, ba = b0 :: ba2 := by
      cases ba with
      | nil => simp at hkeys
      | cons a b => exact ⟨a, b, rfl⟩
    simp only [List.map_cons, List.cons.injEq] at hkeys
    have hnotin : kw.1 ∉ t.map Prod.fst :=
      (List.nodup_cons.mp (by simpa using hnd)).1
    simp only [List.foldl_cons]
    rw [show pyInsert (b0 :: ba2) kw.1 (f kw) = (kw.1, f kw) :: ba2 from by
      obtain ⟨b01, b02⟩ := b0
      simp only [Prod.fst] at hkeys
      rw [show b01 = kw.1 from hkeys.1]
      simp [pyInsert]]
    rw [foldl_pyInsert_skip f t kw.1 (f kw) ba2
      fun kw2 h2 he => hnotin (List.mem_map.mpr ⟨kw2, h2, he⟩)]
    rw [foldl_pyInsert_aligned f t ba2 hkeys.2
      (List.nodup_cons.mp (by simpa using hnd)).2]
    rfl

lemma rebalance_pos {tw ba : List (String × K)} (h : 0 < totalBalance ba)
    (hkeys : ba.map Prod.fst = tw.map Prod.fst)
    (hnd : (tw.map Prod.fst).Nodup) :
    rebalance tw ba = tw.map fun kw => (kw.1, totalBalance ba * kw.2) := by
  unfold rebalance
  rw [if_neg (not_le.mpr h)]
  exact foldl_pyInsert_aligned (fun kw => totalBalance ba * kw.2) tw ba hkeys hnd

lemma totalBalance_rebalance {tw ba : List (String × K)}
    (hkeys : ba.map Prod.fst = tw.map Prod.fst)
    (hnd : (tw.map Prod.fst).Nodup) (hsum : totalBalance tw = 1)
    (hnn : 0 ≤ totalBalance ba) :
    totalBalance (rebalance tw ba) = totalBalance ba := by
  rcases eq_or_lt_of_le hnn with h | h
  · rw [rebalance_nonpos h.symm.le, totalBalance_map_zero, ← h]
  · rw [rebalance_pos h hkeys hnd, totalBalance_map_mul, hsum, mul_one]

/-! ### Lookup and insertion -/

lemma lookupKV_pyInsert_self {α : Type} :
    ∀ (l : List (String × α)) (q : String) (v : α),
      lookupKV (pyInsert l q v) q = some v
  | [], q, v => by simp [pyInsert, lookupKV]
  | (k, w) :: t, q, v => by
    by_cases h : k = q
    · subst h; simp [pyInsert, lookupKV]
    · simp [pyInsert, lookupKV, h, lookupKV_pyInsert_self t q v]

lemma lookupKV_pyInsert_ne {α : Type} :
    ∀ (l : List (String × α)) (q : String) (v : α) (q2 : String), ¬(q = q2) →
      lookupKV (pyInsert l q v) q2 = lookupKV l q2
  | [], q, v, q2, h => by simp [pyInsert, lookupKV, h]
  | (k, w) :: t, q, v, q2, h => by
    by_cases hk : k = q
    · subst hk; simp [pyInsert, lookupKV, h]
    · simp [pyInsert, lookupKV, hk, lookupKV_pyInsert_ne t q v q2 h]

/-! ### The asset_mret construction -/

lemma buildAssetMret_nil (annToMonthly : K → K) (a : Assumptions K)
    (acc : List (String × K)) :
    buildAssetMret annToMonthly a acc [] = .ok acc := rfl

lemma buildAssetMret_cons_none (annToMonthly : K → K) (a : Assumptions K)
    (acc : List (String × K)) {k : String} (b : K) (t : List (String × K))
    (hlk : lookupKV ASSET_KEY_TO_RETURN k = none) :
    buildAssetMret annToMonthly a acc ((k, b) :: t)
      = .error (String.append "KeyError: " k) := by
  unfold buildAssetMret
  rw [hlk]

lemma buildAssetMret_cons_some (annToMonthly : K → K) (a : Assumptions K)
    (acc : List (String × K)) {k : String} (b : K) (t : List (String × K))
    {rk : String} (hlk : lookupKV ASSET_KEY_TO_RETURN k = some rk) :
    buildAssetMret annToMonthly a acc ((k, b) :: t)
      = buildAssetMret annToMonthly a
          (pyInsert acc k (annToMonthly ((assumptionsGet a rk).getD 0 / 100))) t := by
  conv_lhs => unfold buildAssetMret
  rw [hlk]

lemma buildAssetMret_ok_of_known (annToMonthly : K → K) (a : Assumptions K) :
    ∀ (l acc : List (String × K)),
      (∀ kv ∈ l, (lookupKV ASSET_KEY_TO_RETURN kv.1).isSome = true) →
      ∃ res, buildAssetMret annToMonthly a acc l = .ok res
  | [], acc, _ => ⟨acc, rfl⟩
  | (k, b) :: t, acc, h => by
    obtain ⟨rk, hrk⟩ := Option.isSome_iff_exists.mp (h (k, b) (by simp))
    have hrk2 : lookupKV ASSET_KEY_TO_RETURN k = some rk := hrk
    rw [buildAssetMret_cons_some annToMonthly a acc b t hrk2]
    exact buildAssetMret_ok_of_known annToMonthly a t _
      fun kv h2 => h kv (List.mem_cons_of_mem _ h2)

lemma buildAssetMret_error_of_unknown (annToMonthly : K → K) (a : Assumptions K) :
    ∀ (l acc : List (String × K)) (kv : String × K), kv ∈ l →
      lookupKV ASSET_KEY_TO_RETURN kv.1 = none →
      ∃ e, buildAssetMret annToMonthly a acc l = .error e
  | [], _, kv, h, _ => by simp at h
  | (k, b) :: t, acc, kv, h, hnone => by
    rcases List.mem_cons.mp h with h1 | h1
    · have hk : lookupKV ASSET_KEY_TO_RETURN k = none := by
        rw [show k = kv.1 from (congrArg Prod.fst h1).symm]
        exact hnone
      exact ⟨_, buildAssetMret_cons_none annToMonthly a acc b t hk⟩
    · cases hlk : lookupKV ASSET_KEY_TO_RETURN k with
      | none => exact ⟨_, buildAssetMret_cons_none annToMonthly a acc b t hlk⟩
      | some rk =>
        rw [buildAssetMret_cons_some annToMonthly a acc b t hlk]
        exact buildAssetMret_error_of_unknown annToMonthly a t _ kv h1 hnone

lemma buildAssetMret_val {annToMonthly : K → K} {a : Assumptions K} {P : K → Prop}
    (hP : ∀ rk : String, P (annToMonthly ((assumptionsGet a rk).getD 0 / 100))) :
    ∀ (l acc res : List (String × K)), (∀ kv ∈ acc, P kv.2) →
      buildAssetMret annToMonthly a acc l = .ok res → ∀ kv ∈ res, P kv.2
  | [], acc, res, hacc, h => by
    rw [buildAssetMret_nil] at h
    have hres : acc = res := by simpa using h
    exact hres ▸ hacc
  | (k, b) :: t, acc, res, hacc, h => by
    cases hlk : lookupKV ASSET_KEY_TO_RETURN k with
    | none =>
      rw [buildAssetMret_cons_none annToMonthly a acc b t hlk] at h
      simp at h
    | some rk =>
      rw [buildAssetMret_cons_some annToMonthly a acc b t hlk] at h
      exact buildAssetMret_val hP t _ res (pyInsert_val hacc (hP rk)) h

lemma lookup_getD_factor {mret : List (String × K)}
    (h : ∀ kv ∈ mret, 0 ≤ 1 + kv.2) (k : String) :
    0 ≤ 1 + (lookupKV mret k).getD 0 := by
  cases hl : lookupKV mret k with
  | none => simp
  | some v => simpa using h (k, v) (lookupKV_mem hl)

/-! ### Configuration resolution -/

/-- The pinned divisor `sum(by_asset.values()) or 1.0` (line 48). -/
def totalInitOf (args : Args K) : K :=
  if totalBalance (pyDict args.portfolioBreakdown) = 0 then 1
  else totalBalance (pyDict args.portfolioBreakdown)

/-- The configuration produced by `cfgOf` once `asset_mret` has been built. -/
def mkConfig (args : Args K) (mret : List (String × K)) : Config K :=
  let horizonYears := args.horizonYears.getD
    (max 0 (args.targetRetirementAge - args.currentAge))
  let lifeExpectancyAge := args.lifeExpectancyAge.getD
    (args.currentAge + horizonYears)
  { currentAge := args.currentAge
    targetAge := args.targetRetirementAge
    startYear := args.startCalendarYear.getD 2025
    monthsTotal := min ((lifeExpectancyAge - args.currentAge) * 12) (horizonYears * 12)
    retirementM := max 0 ((args.targetRetirementAge - args.currentAge) * 12)
    includeSchedule := args.includeSchedule.getD true
    granularity := args.scheduleGranularity.getD "monthly"
    stopWhenDepleted := args.stopWhenDepleted.getD true
    monthlyContrib := args.monthlyContributions
    monthlyExpenses := args.monthlyExpenses.getD 0
    swr := args.assumptions.swrPct / 100
    rebalanceEvery := args.assumptions.rebalanceFrequencyMonths.getD 12
    assetMret := mret
    targetWeights := (pyDict args.portfolioBreakdown).map
      (fun kv => (kv.1, kv.2 / totalInitOf args))
    initByAsset := pyDict args.portfolioBreakdown }

lemma cfgOf_eq_ok {annToMonthly : K → K} {args : Args K} {mret : List (String × K)}
    (h : buildAssetMret annToMonthly args.assumptions [] args.portfolioBreakdown
      = .ok mret) :
    cfgOf annToMonthly args = .ok (mkConfig args mret) := by
  unfold cfgOf mkConfig totalInitOf
  rw [h]

lemma cfgOf_ok_elim {annToMonthly : K → K} {args : Args K} {cfg : Config K}
    (h : cfgOf annToMonthly args = .ok cfg) :
    ∃ mret,
      buildAssetMret annToMonthly args.assumptions [] args.portfolioBreakdown
        = .ok mret ∧ cfg = mkConfig args mret := by
  cases hb : buildAssetMret annToMonthly args.assumptions [] args.portfolioBreakdown with
  | error e =>
    unfold cfgOf at h
    rw [hb] at h
    simp at h
  | ok mret =>
    rw [cfgOf_eq_ok hb] at h
    refine ⟨mret, rfl, ?_⟩
    injection h with h2
    exact h2.symm

lemma map_fst_pair {α β : Type} (l : List (String × α)) (f : String × α → β) :
    (l.map fun kv => (kv.1, f kv)).map Prod.fst = l.map Prod.fst := by
  induction l with
  | nil => rfl
  | cons kv t ih => simp [ih]

/-! ### Facts about the real annual-to-monthly conversion -/

lemma one_add_ann_to_monthly (r : ℝ) :
    1 + ann_to_monthly r = (1 + r) ^ ((1 : ℝ) / 12) := by
  unfold ann_to_monthly
  ring

lemma ann_to_monthly_zero : ann_to_monthly 0 = 0 := by
  unfold ann_to_monthly
  norm_num

lemma one_add_ann_to_monthly_nonneg (r : ℝ) : 0 ≤ 1 + ann_to_monthly r := by
  rw [one_add_ann_to_monthly]
  rcases lt_trichotomy (1 + r) 0 with h | h | h
  · rw [Real.rpow_def_of_neg h]
    have hc : 0 < Real.cos (1 / 12 * Real.pi) := by
      apply Real.cos_pos_of_mem_Ioo
      constructor
      · have := Real.pi_pos
        linarith
      · have := Real.pi_pos
        linarith
    exact (mul_pos (Real.exp_pos _) hc).le
  · rw [h, Real.zero_rpow (by norm_num)]
  · exact (Real.rpow_pos_of_pos h _).le

lemma one_add_ann_to_monthly_pos {r : ℝ} (h : -1 < r) :
    0 < 1 + ann_to_monthly r := by
  rw [one_add_ann_to_monthly]
  exact Real.rpow_pos_of_pos (by linarith) _

/-! ### Structural facts about the resolved configuration -/

lemma mkConfig_initByAsset (args : Args K) (mret : List (String × K)) :
    (mkConfig args mret).initByAsset = pyDict args.portfolioBreakdown := rfl

lemma mkConfig_targetWeights (args : Args K) (mret : List (String × K)) :
    (mkConfig args mret).targetWeights
      = (pyDict args.portfolioBreakdown).map
          (fun kv => (kv.1, kv.2 / totalInitOf args)) := rfl

lemma mkConfig_assetMret (args : Args K) (mret : List (String × K)) :
    (mkConfig args mret).assetMret = mret := rfl

/-- Key alignment between the balance dict and the frozen target weights. -/
def KeysOK (cfg : Config K) : Prop :=
  cfg.initByAsset.map Prod.fst = cfg.targetWeights.map Prod.fst ∧
    (cfg.targetWeights.map Prod.fst).Nodup

lemma mkConfig_keysOK (args : Args K) (mret : List (String × K)) :
    KeysOK (mkConfig args mret) := by
  constructor
  · rw [mkConfig_targetWeights, mkConfig_initByAsset, map_fst_pair]
  · rw [mkConfig_targetWeights, map_fst_pair]
    exact pyDict_nodup _

lemma targetWeights_sum_one (args : Args K) (mret : List (String × K))
    (hpos : 0 < totalBalance (pyDict args.portfolioBreakdown)) :
    totalBalance (mkConfig args mret).targetWeights = 1 := by
  rw [mkConfig_targetWeights, totalBalance_map_div]
  unfold totalInitOf
  rw [if_neg (ne_of_gt hpos)]
  exact div_self (ne_of_gt hpos)

lemma rebalance_eq (tw ba : List (String × K)) :
    rebalance tw ba =
      if totalBalance ba ≤ 0 then ba.map fun kv => (kv.1, (0 : K))
      else tw.foldl (fun b kw => pyInsert b kw.1 (totalBalance ba * kw.2)) ba := rfl

/-! ### Key preservation through the loop -/

lemma postGrowth_keys (cfg : Config K) (st : SimState K) (m : ℕ) :
    (postGrowth cfg st m).map Prod.fst = st.byAsset.map Prod.fst := by
  unfold postGrowth applyGrowth postCashFlow
  rw [map_fst_pair, applyCashFlow_eq]
  split
  · rw [map_fst_pair]
  · rfl

lemma step_keys {cfg : Config K} (hk : KeysOK cfg) {st : SimState K} (m : ℕ)
    (h : st.byAsset.map Prod.fst = cfg.targetWeights.map Prod.fst) :
    (step cfg st m).byAsset.map Prod.fst = cfg.targetWeights.map Prod.fst := by
  rw [step_byAsset]
  unfold postRebalance
  split
  · rcases le_or_lt (totalBalance (postGrowth cfg st m)) 0 with hle | hlt
    · rw [rebalance_nonpos hle, map_fst_pair, postGrowth_keys, h]
    · rw [rebalance_pos hlt (by rw [postGrowth_keys, h]) hk.2, map_fst_pair]
  · rw [postGrowth_keys, h]

lemma stateAt_keys (args : Args K) (mret : List (String × K)) (n : ℕ) :
    (stateAt (mkConfig args mret) n).byAsset.map Prod.fst
      = (mkConfig args mret).targetWeights.map Prod.fst :=
  stateAt_inv (mkConfig args mret)
    (fun st => st.byAsset.map Prod.fst
      = (mkConfig args mret).targetWeights.map Prod.fst)
    (fun st m h => step_keys (mkConfig_keysOK args mret) m h)
    (mkConfig_keysOK args mret).1 n

/-! ### Nonnegativity of all reachable balances -/

lemma step_nonneg {cfg : Config K}
    (hw : ∀ kv ∈ cfg.targetWeights, 0 ≤ kv.2)
    (hf : ∀ k, 0 ≤ 1 + (lookupKV cfg.assetMret k).getD 0)
    {st : SimState K} (m : ℕ) (h0 : ∀ kv ∈ st.byAsset, 0 ≤ kv.2) :
    ∀ kv ∈ (step cfg st m).byAsset, 0 ≤ kv.2 := by
  rw [step_byAsset]
  unfold postRebalance
  have hg : ∀ kv ∈ postGrowth cfg st m, 0 ≤ kv.2 :=
    applyGrowth_nonneg (applyCashFlow_nonneg h0) hf
  split
  · rw [rebalance_eq]
    split
    · intro kv hkv
      simp only [List.mem_map] at hkv
      obtain ⟨kw, _, rfl⟩ := hkv
      exact le_refl 0
    · rename_i hpos
      refine foldl_pyInsert_val _ cfg.targetWeights _ hg fun kw hkw => ?_
      exact mul_nonneg (totalBalance_nonneg hg) (hw kw hkw)
  · exact hg

lemma targetWeights_nonneg (args : Args K) (mret : List (String × K))
    (hnn : ∀ kv ∈ args.portfolioBreakdown, 0 ≤ kv.2) :
    ∀ kv ∈ (mkConfig args mret).targetWeights, 0 ≤ kv.2 := by
  have hdict : ∀ kv ∈ pyDict args.portfolioBreakdown, 0 ≤ kv.2 := pyDict_val hnn
  rw [mkConfig_targetWeights]
  intro kv hkv
  simp only [List.mem_map] at hkv
  obtain ⟨kw, hkw, rfl⟩ := hkv
  refine div_nonneg (hdict kw hkw) ?_
  unfold totalInitOf
  split
  · norm_num
  · exact totalBalance_nonneg hdict

lemma stateAt_nonneg {args : Args K} {mret : List (String × K)}
    (hnn : ∀ kv ∈ args.portfolioBreakdown, 0 ≤ kv.2)
    (hf : ∀ kv ∈ mret, 0 ≤ 1 + kv.2) (n : ℕ) :
    ∀ kv ∈ (stateAt (mkConfig args mret) n).byAsset, 0 ≤ kv.2 := by
  have hdict : ∀ kv ∈ pyDict args.portfolioBreakdown, 0 ≤ kv.2 := pyDict_val hnn
  exact stateAt_inv (mkConfig args mret) (fun st => ∀ kv ∈ st.byAsset, 0 ≤ kv.2)
    (fun st m h =>
      step_nonneg (targetWeights_nonneg args mret hnn) (lookup_getD_factor hf) m h)
    hdict n

/-! ### Record membership through one step -/

lemma stopState_results (cfg : Config K) (st : SimState K) (m : ℕ) :
    (stopState cfg st m).results = st.results ++
      (if cfg.includeSchedule ∧ cfg.granularity = "monthly" then
        [monthlyRecord cfg m st.age (contribWd cfg st m).1
          (contribWd cfg st m).2.1 (endBalOf cfg st m)]
      else []) := rfl

lemma recordAndAdvance_results (cfg : Config K) (st : SimState K) (m : ℕ)
    (sust : Option K) (exh : Option ℤ) (ba3 : List (String × K)) (endBal : K) :
    (recordAndAdvance cfg st m sust exh ba3 endBal).results = st.results ++
      (if cfg.includeSchedule then
        if cfg.granularity = "monthly" then
          [monthlyRecord cfg m (cfg.currentAge + (m : ℤ) / 12)
            (contribWd cfg st m).1 (contribWd cfg st m).2.1 endBal]
        else if (m + 1) % 12 = 0 then [yearlyRecord cfg m endBal] else []
      else []) := rfl

lemma step_results_mem (cfg : Config K) (st : SimState K) (m : ℕ) :
    ∀ r ∈ (step cfg st m).results,
      r ∈ st.results ∨ r.endBalance = endBalOf cfg st m := by
  intro r hr
  unfold step at hr
  split at hr
  · split at hr
    · rw [stopState_results] at hr
      rcases List.mem_append.mp hr with h1 | h1
      · exact Or.inl h1
      · right
        split at h1
        · rcases List.mem_singleton.mp h1 with rfl
          rfl
        · simp at h1
    · rw [recordAndAdvance_results] at hr
      rcases List.mem_append.mp hr with h1 | h1
      · exact Or.inl h1
      · right
        split at h1
        · split at h1
          · rcases List.mem_singleton.mp h1 with rfl
            rfl
          · split at h1
            · rcases List.mem_singleton.mp h1 with rfl
              rfl
            · simp at h1
        · simp at h1
  · rw [recordAndAdvance_results] at hr
    rcases List.mem_append.mp hr with h1 | h1
    · exact Or.inl h1
    · right
      split at h1
      · split at h1
        · rcases List.mem_singleton.mp h1 with rfl
          rfl
        · split at h1
          · rcases List.mem_singleton.mp h1 with rfl
            rfl
          · simp at h1
      · simp at h1

/-! ### The all-zero run: a portfolio that starts at zero stays at zero -/

/-- All balances zero, all recorded end balances zero, and the sustainable
withdrawal (if frozen) zero. -/
def ZeroInv (st : SimState K) : Prop :=
  (∀ kv ∈ st.byAsset, kv.2 = 0) ∧ (∀ r ∈ st.results, r.endBalance = 0) ∧
    (st.sustainable = none ∨ st.sustainable = some 0)

lemma postGrowth_zero {cfg : Config K} {st : SimState K} (m : ℕ)
    (h : ∀ kv ∈ st.byAsset, kv.2 = 0) :
    ∀ kv ∈ postGrowth cfg st m, kv.2 = 0 := by
  have htb : totalBalance st.byAsset = 0 := totalBalance_eq_zero h
  have hncf : ¬(totalBalance st.byAsset > 0) := by rw [htb]; exact lt_irrefl 0
  have hpcf : postCashFlow cfg st m = st.byAsset := by
    unfold postCashFlow
    rw [applyCashFlow_eq, if_neg hncf]
  unfold postGrowth applyGrowth
  rw [hpcf]
  intro kv hkv
  simp only [List.mem_map] at hkv
  obtain ⟨kw, hkw, rfl⟩ := hkv
  simp [h kw hkw]

lemma endBalOf_zero {cfg : Config K} {st : SimState K} (m : ℕ)
    (h : ∀ kv ∈ st.byAsset, kv.2 = 0) : endBalOf cfg st m = 0 :=
  totalBalance_eq_zero (postGrowth_zero m h)

lemma step_zeroInv {cfg : Config K} {st : SimState K} (m : ℕ) (h : ZeroInv st) :
    ZeroInv (step cfg st m) := by
  obtain ⟨hz, hrec, hsust⟩ := h
  have hg0 : ∀ kv ∈ postGrowth cfg st m, kv.2 = 0 := postGrowth_zero m hz
  have hend : endBalOf cfg st m = 0 := endBalOf_zero m hz
  have htb : totalBalance st.byAsset = 0 := totalBalance_eq_zero hz
  refine ⟨?_, ?_, ?_⟩
  · rw [step_byAsset]
    unfold postRebalance
    split
    · rw [rebalance_nonpos (by rw [show totalBalance (postGrowth cfg st m) = 0 from
        totalBalance_eq_zero hg0])]
      intro kv hkv
      simp only [List.mem_map] at hkv
      obtain ⟨kw, _, rfl⟩ := hkv
      rfl
    · exact hg0
  · intro r hr
    rcases step_results_mem cfg st m r hr with h1 | h1
    · exact hrec r h1
    · rw [h1, hend]
  · rw [step_sustainable]
    unfold contribWd
    split
    · exact hsust
    · rcases hsust with h1 | h1
      · right
        simp only [h1, htb]
        norm_num
      · right
        simp [h1]

lemma zeroInv_stateAt (args : Args K) (mret : List (String × K))
    (hz : ∀ kv ∈ pyDict args.portfolioBreakdown, kv.2 = 0) (n : ℕ) :
    ZeroInv (stateAt (mkConfig args mret) n) := by
  refine stateAt_inv (mkConfig args mret) ZeroInv (fun st m h => step_zeroInv m h) ?_ n
  exact ⟨hz, by simp [initState], Or.inl rfl⟩

/-! ### Output characterization -/

lemma compute_ok {annToMonthly : K → K} (args : Args K) {cfg : Config K}
    (hcfg : cfgOf annToMonthly args = .ok cfg) :
    compute_projection annToMonthly args
      = .ok { metrics := mkMetrics cfg (finalState cfg)
              projectionResults := (finalState cfg).results } := by
  unfold compute_projection
  rw [hcfg]
  rfl

lemma compute_ok_elim {annToMonthly : K → K} {args : Args K} {cfg : Config K}
    {r : Result K} (hcfg : cfgOf annToMonthly args = .ok cfg)
    (hr : compute_projection annToMonthly args = .ok r) :
    r = { metrics := mkMetrics cfg (finalState cfg)
          projectionResults := (finalState cfg).results } := by
  rw [compute_ok args hcfg] at hr
  injection hr with h
  exact h.symm

lemma mkMetrics_sustainable (cfg : Config K) (st : SimState K) :
    (mkMetrics cfg st).sustainableMonthlySpend = st.sustainable := rfl

lemma mkMetrics_exhaustion (cfg : Config K) (st : SimState K) :
    (mkMetrics cfg st).estimatedExhaustionAge = st.exhaustionAge := rfl

/-! ### Zero-sum lists of nonnegative values -/

lemma all_zero_of_sum_zero {l : List (String × K)}
    (h0 : ∀ kv ∈ l, 0 ≤ kv.2) (hs : totalBalance l = 0) :
    ∀ kv ∈ l, kv.2 = 0 := by
  induction l with
  | nil => simp
  | cons kv t ih =>
    rw [totalBalance_cons] at hs
    have h1 : 0 ≤ kv.2 := h0 kv (by simp)
    have h2 : ∀ kv2 ∈ t, 0 ≤ kv2.2 :=
      fun kv2 hk => h0 kv2 (List.mem_cons_of_mem _ hk)
    have h3 : 0 ≤ totalBalance t := totalBalance_nonneg h2
    intro kv2 hkv2
    rcases List.mem_cons.mp hkv2 with h4 | h4
    · subst h4
      linarith
    · exact ih h2 (by linarith) kv2 h4

/-! ### Keys of the balance dict come from the breakdown -/

lemma foldl_pyInsert_keys_sub {α β : Type} (f : String × β → α) :
    ∀ (l : List (String × β)) (acc : List (String × α)) (k : String),
      k ∈ ((l.foldl (fun ba kw => pyInsert ba kw.1 (f kw)) acc).map Prod.fst) →
      k ∈ acc.map Prod.fst ∨ k ∈ l.map Prod.fst
  | [], _, k, h => Or.inl h
  | kw :: t, acc, k, h => by
    rcases foldl_pyInsert_keys_sub f t _ k h with h1 | h1
    · rw [pyInsert_map_fst] at h1
      split at h1
      · exact Or.inl h1
      · rcases List.mem_append.mp h1 with h2 | h2
        · exact Or.inl h2
        · right
          rw [List.mem_singleton.mp h2]
          simp
    · exact Or.inr (List.mem_cons_of_mem _ h1)

lemma pyDict_keys_sub {α : Type} (l : List (String × α)) (k : String)
    (h : k ∈ (pyDict l).map Prod.fst) : k ∈ l.map Prod.fst := by
  rcases foldl_pyInsert_keys_sub Prod.snd l [] k h with h1 | h1
  · simp at h1
  · exact h1

/-! ### The monthly rate stored for each breakdown asset class -/

lemma buildAssetMret_lookup {annToMonthly : K → K} {a : Assumptions K} :
    ∀ (l acc res : List (String × K)),
      buildAssetMret annToMonthly a acc l = .ok res →
      (∀ k2 v, lookupKV acc k2 = some v →
        ∃ rk2, lookupKV ASSET_KEY_TO_RETURN k2 = some rk2 ∧
          v = annToMonthly ((assumptionsGet a rk2).getD 0 / 100)) →
      ∀ k2, (k2 ∈ l.map Prod.fst ∨ (lookupKV acc k2).isSome = true) →
        ∃ rk2, lookupKV ASSET_KEY_TO_RETURN k2 = some rk2 ∧
          lookupKV res k2
            = some (annToMonthly ((assumptionsGet a rk2).getD 0 / 100))
  | [], acc, res, hok, hinv, k2, hk2 => by
    rw [buildAssetMret_nil] at hok
    have hres : acc = res := by simpa using hok
    subst hres
    rcases hk2 with h1 | h1
    · simp at h1
    · obtain ⟨v, hv⟩ := Option.isSome_iff_exists.mp h1
      obtain ⟨rk2, hrk2, hveq⟩ := hinv k2 v hv
      exact ⟨rk2, hrk2, by rw [hv, hveq]⟩
  | (k, b) :: t, acc, res, hok, hinv, k2, hk2 => by
    cases hlk : lookupKV ASSET_KEY_TO_RETURN k with
    | none =>
      rw [buildAssetMret_cons_none annToMonthly a acc b t hlk] at hok
      simp at hok
    | some rk =>
      rw [buildAssetMret_cons_some annToMonthly a acc b t hlk] at hok
      set acc2 := pyInsert acc k (annToMonthly ((assumptionsGet a rk).getD 0 / 100))
        with hacc2
      have hinv2 : ∀ k3 v, lookupKV acc2 k3 = some v →
          ∃ rk3, lookupKV ASSET_KEY_TO_RETURN k3 = some rk3 ∧
            v = annToMonthly ((assumptionsGet a rk3).getD 0 / 100) := by
        intro k3 v hv
        by_cases he : k = k3
        · subst he
          rw [hacc2, lookupKV_pyInsert_self] at hv
          exact ⟨rk, hlk, by injection hv with h5; exact h5.symm⟩
        · rw [hacc2, lookupKV_pyInsert_ne acc _ _ _ he] at hv
          exact hinv k3 v hv
      refine buildAssetMret_lookup t acc2 res hok hinv2 k2 ?_
      by_cases he : k = k2
      · subst he
        right
        rw [hacc2, lookupKV_pyInsert_self]
        rfl
      · rcases hk2 with h1 | h1
        · rw [List.map_cons] at h1
          rcases List.mem_cons.mp h1 with h2 | h2
          · exact absurd h2.symm he
          · exact Or.inl h2
        · right
          rw [hacc2, lookupKV_pyInsert_ne acc _ _ _ he]
          exact h1

/-! ### A concrete run: retirement from month 0, one equity bucket, flat
returns.  currentAge=30, targetRetirementAge=29 (so retirementMonthIndex is
0), horizonYears=1, lifeExpectancyAge=40, no contributions, no expenses,
swrPct=0, rebalancing disabled, balance 100. -/

noncomputable def simpleAssum : Assumptions ℝ :=
  { equityReturnAnnualPct := none
    bondReturnAnnualPct := none
    cashReturnAnnualPct := none
    altReturnAnnualPct := none
    swrPct := 0
    rebalanceFrequencyMonths := some 0 }

noncomputable def simpleArgs : Args ℝ :=
  { currentAge := 30
    targetRetirementAge := 29
    startCalendarYear := none
    horizonYears := some 1
    lifeExpectancyAge := some 40
    includeSchedule := some true
    scheduleGranularity := some "monthly"
    stopWhenDepleted := none
    monthlyContributions := 0
    monthlyExpenses := none
    portfolioBreakdown := [("equity", 100)]
    assumptions := simpleAssum }

noncomputable def simpleMret : List (String × ℝ) := [("equity", 0)]

noncomputable def simpleCfg : Config ℝ :=
  { currentAge := 30
    targetAge := 29
    startYear := 2025
    monthsTotal := 12
    retirementM := 0
    includeSchedule := true
    granularity := "monthly"
    stopWhenDepleted := true
    monthlyContrib := 0
    monthlyExpenses := 0
    swr := 0
    rebalanceEvery := 0
    assetMret := simpleMret
    targetWeights := [("equity", 1)]
    initByAsset := [("equity", 100)] }

lemma simpleBuild :
    buildAssetMret ann_to_monthly simpleArgs.assumptions []
      simpleArgs.portfolioBreakdown = .ok simpleMret := by
  have hlk : lookupKV ASSET_KEY_TO_RETURN "equity" = some "equityReturnAnnualPct" := rfl
  show buildAssetMret ann_to_monthly simpleAssum [] [("equity", 100)] = .ok simpleMret
  rw [buildAssetMret_cons_some ann_to_monthly simpleAssum [] 100 [] hlk,
    buildAssetMret_nil]
  unfold simpleMret simpleAssum
  norm_num [assumptionsGet, pyInsert, ann_to_monthly_zero]

lemma simpleCfgOf : cfgOf ann_to_monthly simpleArgs = .ok simpleCfg := by
  rw [cfgOf_eq_ok simpleBuild]
  apply congrArg
  unfold mkConfig simpleArgs simpleAssum simpleCfg totalInitOf
  norm_num [pyDict, pyInsert, totalBalance, Config.mk.injEq]

/-- The record produced by the first period of the simple run. -/
noncomputable def simpleRec0 : PeriodRecord ℝ :=
  { yearIndex := 0
    monthIndex := some 1
    calendarYear := 2025
    calendarMonth := some 1
    age := 30
    phase := "retirement"
    contributions := some 0
    withdrawals := some 0
    endBalance := 100 }

lemma simpleStep0 :
    step simpleCfg (initState simpleCfg) 0 =
      { byAsset := [("equity", 100)]
        results := [simpleRec0]
        age := 30
        sustainable := some 0
        exhaustionAge := none
        stopped := false } := by
  have hcw : contribWd simpleCfg (initState simpleCfg) 0 = (0, 0, some 0) := by
    unfold contribWd initState simpleCfg simpleMret
    norm_num [totalBalance]
  have hpcf : postCashFlow simpleCfg (initState simpleCfg) 0 = [("equity", 100)] := by
    unfold postCashFlow
    rw [hcw, applyCashFlow_eq]
    unfold initState simpleCfg
    norm_num [totalBalance]
  have hpg : postGrowth simpleCfg (initState simpleCfg) 0 = [("equity", 100)] := by
    unfold postGrowth applyGrowth
    rw [hpcf]
    norm_num [simpleCfg, simpleMret, lookupKV]
  have hend : endBalOf simpleCfg (initState simpleCfg) 0 = 100 := by
    unfold endBalOf
    rw [hpg]
    norm_num [totalBalance]
  have hpr : postRebalance simpleCfg (initState simpleCfg) 0 = [("equity", 100)] := by
    unfold postRebalance
    rw [if_neg (by norm_num [simpleCfg])]
    exact hpg
  unfold step
  rw [if_neg (by rw [hend]; norm_num)]
  unfold recordAndAdvance
  rw [hcw, hpr, hend]
  unfold initState monthlyRecord simpleCfg simpleRec0
  norm_num

lemma simpleAssum_get (k : String) : assumptionsGet simpleAssum k = none := by
  unfold assumptionsGet
  split <;> simp [simpleAssum]

lemma simpleArgs_breakdown_nonneg : ∀ kv ∈ simpleArgs.portfolioBreakdown, 0 ≤ kv.2 := by
  intro kv hkv
  have h : kv = ("equity", (100 : ℝ)) := by simpa [simpleArgs] using hkv
  rw [h]
  norm_num

lemma simpleFinal_results :
    ∃ tl, (finalState simpleCfg).results = simpleRec0 :: tl := by
  have h1 : finalState simpleCfg
      = runLoop simpleCfg 11 1 (step simpleCfg (initState simpleCfg) 0) := by
    show runLoop simpleCfg 12 0 (initState simpleCfg) = _
    rw [show (12 : ℕ) = 1 + 11 from rfl, runLoop_add]
    have h2 : runLoop simpleCfg 1 0 (initState simpleCfg)
        = step simpleCfg (initState simpleCfg) 0 := by
      rw [runLoop]
      rw [if_neg (by simp [initState])]
      rw [if_pos (by norm_num [simpleCfg])]
      rfl
    rw [h2]
  obtain ⟨tl, htl⟩ :=
    runLoop_results simpleCfg 11 1 (step simpleCfg (initState simpleCfg) 0)
  refine ⟨tl, ?_⟩
  rw [h1, htl, simpleStep0]
  rfl

/-! ### Further loop decomposition -/

lemma finalState_decomp (cfg : Config K) (hlt : cfg.retirementM < cfg.monthsTotal)
    (h0 : (0 : ℤ) ≤ cfg.retirementM) :
    finalState cfg
      = runLoop cfg (cfg.monthsTotal.toNat - cfg.retirementM.toNat)
          cfg.retirementM.toNat (stateAt cfg cfg.retirementM.toNat) := by
  unfold finalState stateAt
  rw [show cfg.monthsTotal.toNat
      = cfg.retirementM.toNat + (cfg.monthsTotal.toNat - cfg.retirementM.toNat)
    from by omega]
  rw [runLoop_add]
  rw [Nat.zero_add]
  congr 1
  omega

lemma lookup_getD_factor_pos {mret : List (String × K)}
    (h : ∀ kv ∈ mret, 0 < 1 + kv.2) (k : String) :
    0 < 1 + (lookupKV mret k).getD 0 := by
  cases hl : lookupKV mret k with
  | none => simp
  | some v => simpa using h (k, v) (lookupKV_mem hl)

lemma stateAt_results_nonneg (args : Args K) (mret : List (String × K))
    (hnn : ∀ kv ∈ args.portfolioBreakdown, 0 ≤ kv.2)
    (hf : ∀ kv ∈ mret, 0 ≤ 1 + kv.2) (n : ℕ) :
    ∀ r ∈ (stateAt (mkConfig args mret) n).results, 0 ≤ r.endBalance := by
  have hdict : ∀ kv ∈ pyDict args.portfolioBreakdown, 0 ≤ kv.2 := pyDict_val hnn
  have hmain := stateAt_inv (mkConfig args mret)
    (fun st => (∀ kv ∈ st.byAsset, 0 ≤ kv.2) ∧ (∀ r ∈ st.results, 0 ≤ r.endBalance))
    (fun st m h => by
      refine ⟨step_nonneg (targetWeights_nonneg args mret hnn)
        (lookup_getD_factor hf) m h.1, ?_⟩
      intro r hr
      rcases step_results_mem _ st m r hr with h1 | h1
      · exact h.2 r h1
      · rw [h1]
        exact totalBalance_nonneg
          (applyGrowth_nonneg (applyCashFlow_nonneg h.1) (lookup_getD_factor hf)))
    ⟨hdict, by simp [initState]⟩ n
  exact hmain.2

/-- The per-class annual return percentages present in the assumptions are
all above -100 (so each growth multiplier is strictly positive). -/
def ReturnsAboveNeg100 (a : Assumptions ℝ) : Prop :=
  ∀ k v, assumptionsGet a k = some v → -100 < v

lemma lookupKV_map_snd {α β : Type} (g : α → β) :
    ∀ (l : List (String × α)) (q : String),
      lookupKV (l.map fun kv => (kv.1, g kv.2)) q = (lookupKV l q).map g
  | [], _ => rfl
  | (k, v) :: t, q => by
    by_cases h : k = q
    · subst h; simp [lookupKV]
    · simp [lookupKV, h, lookupKV_map_snd g t q]

lemma lookupKV_applyCashFlow {l : List (String × K)} {c w : K} {k : String} {b : K}
    (hpos : totalBalance l > 0) (hl : lookupKV l k = some b) :
    lookupKV (applyCashFlow l c w) k
      = some (max 0 (b + c * (b / totalBalance l) - w * (b / totalBalance l))) := by
  rw [applyCashFlow_eq, if_pos hpos,
    lookupKV_map_snd
      (fun b2 => max 0 (b2 + c * (b2 / totalBalance l) - w * (b2 / totalBalance l))),
    hl]
  rfl

lemma lookupKV_applyCashFlow_skip {l : List (String × K)} {c w : K} {k : String}
    (hpos : ¬(totalBalance l > 0)) :
    lookupKV (applyCashFlow l c w) k = lookupKV l k := by
  rw [applyCashFlow_eq, if_neg hpos]

lemma lookupKV_applyGrowth (mret l : List (String × K)) (k : String) :
    lookupKV (applyGrowth mret l) k
      = (lookupKV l k).map (fun b2 => b2 * (1 + (lookupKV mret k).getD 0)) := by
  unfold applyGrowth
  exact lookupKV_map (fun k2 b2 => b2 * (1 + (lookupKV mret k2).getD 0)) l k

/-! ### A run whose portfolio starts at zero with nonzero contributions
(Scenario B of the spec): currentAge=30, targetRetirementAge=65, defaults
elsewhere, breakdown `[("equity", 0)]`, monthlyContributions=1000. -/

noncomputable def zeroAssum : Assumptions ℝ :=
  { equityReturnAnnualPct := none
    bondReturnAnnualPct := none
    cashReturnAnnualPct := none
    altReturnAnnualPct := none
    swrPct := 4
    rebalanceFrequencyMonths := some 12 }

noncomputable def zeroArgs : Args ℝ :=
  { currentAge := 30
    targetRetirementAge := 65
    startCalendarYear := none
    horizonYears := none
    lifeExpectancyAge := none
    includeSchedule := some true
    scheduleGranularity := some "monthly"
    stopWhenDepleted := none
    monthlyContributions := 1000
    monthlyExpenses := none
    portfolioBreakdown := [("equity", 0)]
    assumptions := zeroAssum }

noncomputable def zeroCfg : Config ℝ :=
  { currentAge := 30
    targetAge := 65
    startYear := 2025
    monthsTotal := 420
    retirementM := 420
    includeSchedule := true
    granularity := "monthly"
    stopWhenDepleted := true
    monthlyContrib := 1000
    monthlyExpenses := 0
    swr := 4 / 100
    rebalanceEvery := 12
    assetMret := [("equity", 0)]
    targetWeights := [("equity", 0)]
    initByAsset := [("equity", 0)] }

lemma zeroBuild :
    buildAssetMret ann_to_monthly zeroArgs.assumptions []
      zeroArgs.portfolioBreakdown = .ok [("equity", (0 : ℝ))] := by
  have hlk : lookupKV ASSET_KEY_TO_RETURN "equity" = some "equityReturnAnnualPct" := rfl
  show buildAssetMret ann_to_monthly zeroAssum [] [("equity", 0)] = .ok [("equity", 0)]
  rw [buildAssetMret_cons_some ann_to_monthly zeroAssum [] 0 [] hlk, buildAssetMret_nil]
  unfold zeroAssum
  norm_num [assumptionsGet, pyInsert, ann_to_monthly_zero]

lemma zeroCfgOf : cfgOf ann_to_monthly zeroArgs = .ok zeroCfg := by
  rw [cfgOf_eq_ok zeroBuild]
  apply congrArg
  unfold mkConfig zeroArgs zeroAssum zeroCfg totalInitOf
  norm_num [pyDict, pyInsert, totalBalance, Config.mk.injEq]

/-- The single record produced by the zero-balance monthly run before the
depletion break. -/
noncomputable def zeroRec0 : PeriodRecord ℝ :=
  { yearIndex := 0
    monthIndex := some 1
    calendarYear := 2025
    calendarMonth := some 1
    age := 30
    phase := "accumulation"
    contributions := some 1000
    withdrawals := some 0
    endBalance := 0 }

lemma zeroContribWd :
    contribWd zeroCfg (initState zeroCfg) 0 = (1000, 0, none) := by
  unfold contribWd initState zeroCfg
  norm_num

lemma zeroPostGrowth :
    postGrowth zeroCfg (initState zeroCfg) 0 = [("equity", 0)] := by
  unfold postGrowth postCashFlow
  rw [applyCashFlow_eq, if_neg (by
    show ¬(totalBalance (initState zeroCfg).byAsset > 0)
    unfold initState zeroCfg
    norm_num [totalBalance])]
  unfold applyGrowth initState zeroCfg
  norm_num [lookupKV]

lemma zeroEndBal : endBalOf zeroCfg (initState zeroCfg) 0 = 0 := by
  unfold endBalOf
  rw [zeroPostGrowth]
  norm_num [totalBalance]

lemma zeroStep0 :
    step zeroCfg (initState zeroCfg) 0 =
      { byAsset := [("equity", 0)]
        results := [zeroRec0]
        age := 30
        sustainable := none
        exhaustionAge := some 30
        stopped := true } := by
  have hpr : postRebalance zeroCfg (initState zeroCfg) 0 = [("equity", 0)] := by
    unfold postRebalance
    rw [if_neg (by
      rw [show zeroCfg.rebalanceEvery = 12 from rfl]
      decide)]
    exact zeroPostGrowth
  unfold step
  rw [if_pos ⟨zeroEndBal.le, rfl⟩,
    if_pos (show zeroCfg.stopWhenDepleted = true from rfl)]
  unfold stopState
  rw [hpr, zeroContribWd, zeroEndBal]
  unfold initState monthlyRecord zeroCfg zeroRec0
  norm_num

lemma zeroFinal :
    finalState zeroCfg =
      { byAsset := [("equity", 0)]
        results := [zeroRec0]
        age := 30
        sustainable := none
        exhaustionAge := some 30
        stopped := true } := by
  show runLoop zeroCfg 420 0 (initState zeroCfg) = _
  rw [show (420 : ℕ) = 1 + 419 from by norm_num, runLoop_add]
  have h1 : runLoop zeroCfg 1 0 (initState zeroCfg)
      = step zeroCfg (initState zeroCfg) 0 := by
    rw [runLoop, if_neg (by simp [initState]),
      if_pos (by rw [show zeroCfg.monthsTotal = 420 from rfl]; norm_num)]
    rfl
  rw [h1, zeroStep0]
  exact runLoop_stopped zeroCfg 419 1 rfl

/-! ### The same zero-balance run at yearly granularity -/

noncomputable def zeroArgsY : Args ℝ :=
  { zeroArgs with scheduleGranularity := some "yearly" }

noncomputable def zeroCfgY : Config ℝ := { zeroCfg with granularity := "yearly" }

lemma zeroBuildY :
    buildAssetMret ann_to_monthly zeroArgsY.assumptions []
      zeroArgsY.portfolioBreakdown = .ok [("equity", (0 : ℝ))] := zeroBuild

lemma zeroCfgOfY : cfgOf ann_to_monthly zeroArgsY = .ok zeroCfgY := by
  rw [cfgOf_eq_ok zeroBuildY]
  apply congrArg
  unfold mkConfig zeroArgsY zeroArgs zeroAssum zeroCfgY zeroCfg totalInitOf
  norm_num [pyDict, pyInsert, totalBalance, Config.mk.injEq]

lemma zeroContribWdY :
    contribWd zeroCfgY (initState zeroCfgY) 0 = (1000, 0, none) := by
  unfold contribWd initState zeroCfgY zeroCfg
  norm_num

lemma zeroPostGrowthY :
    postGrowth zeroCfgY (initState zeroCfgY) 0 = [("equity", 0)] := by
  unfold postGrowth postCashFlow
  rw [applyCashFlow_eq, if_neg (by
    show ¬(totalBalance (initState zeroCfgY).byAsset > 0)
    unfold initState zeroCfgY zeroCfg
    norm_num [totalBalance])]
  unfold applyGrowth initState zeroCfgY zeroCfg
  norm_num [lookupKV]

lemma zeroEndBalY : endBalOf zeroCfgY (initState zeroCfgY) 0 = 0 := by
  unfold endBalOf
  rw [zeroPostGrowthY]
  norm_num [totalBalance]

lemma zeroStep0Y :
    step zeroCfgY (initState zeroCfgY) 0 =
      { byAsset := [("equity", 0)]
        results := []
        age := 30
        sustainable := none
        exhaustionAge := some 30
        stopped := true } := by
  have hpr : postRebalance zeroCfgY (initState zeroCfgY) 0 = [("equity", 0)] := by
    unfold postRebalance
    rw [if_neg (by
      rw [show zeroCfgY.rebalanceEvery = 12 from rfl]
      decide)]
    exact zeroPostGrowthY
  unfold step
  rw [if_pos ⟨zeroEndBalY.le, rfl⟩,
    if_pos (show zeroCfgY.stopWhenDepleted = true from rfl)]
  unfold stopState
  rw [hpr, zeroContribWdY, zeroEndBalY]
  unfold initState zeroCfgY zeroCfg
  norm_num
  decide

lemma zeroFinalY :
    finalState zeroCfgY =
      { byAsset := [("equity", 0)]
        results := []
        age := 30
        sustainable := none
        exhaustionAge := some 30
        stopped := true } := by
  show runLoop zeroCfgY 420 0 (initState zeroCfgY) = _
  rw [show (420 : ℕ) = 1 + 419 from by norm_num, runLoop_add]
  have h1 : runLoop zeroCfgY 1 0 (initState zeroCfgY)
      = step zeroCfgY (initState zeroCfgY) 0 := by
    rw [runLoop, if_neg (by simp [initState]),
      if_pos (by rw [show zeroCfgY.monthsTotal = 420 from rfl]; norm_num)]
    rfl
  rw [h1, zeroStep0Y]
  exact runLoop_stopped zeroCfgY 419 1 rfl

/-! ### Scenario A of the spec: currentAge=30, targetRetirementAge=65,
lifeExpectancyAge=95, monthlyContributions=1000, monthlyExpenses=0, a single
equity bucket of 10000 at 7% annual return, swrPct=4,
rebalanceFrequencyMonths=12, monthly granularity, includeSchedule true,
horizonYears left to its default max(0, 65-30)=35.  Then monthsTotal =
min(780, 420) = 420 = retirementMonthIndex: the loop never enters the
retirement phase. -/

noncomputable def scenAAssum : Assumptions ℝ :=
  { equityReturnAnnualPct := some 7
    bondReturnAnnualPct := none
    cashReturnAnnualPct := none
    altReturnAnnualPct := none
    swrPct := 4
    rebalanceFrequencyMonths := some 12 }

noncomputable def scenAArgs : Args ℝ :=
  { currentAge := 30
    targetRetirementAge := 65
    startCalendarYear := none
    horizonYears := none
    lifeExpectancyAge := some 95
    includeSchedule := some true
    scheduleGranularity := some "monthly"
    stopWhenDepleted := none
    monthlyContributions := 1000
    monthlyExpenses := some 0
    portfolioBreakdown := [("equity", 10000)]
    assumptions := scenAAssum }

/-- The monthly rate of the 7% equity bucket. -/
noncomputable def scenARate : ℝ := ann_to_monthly (7 / 100)

noncomputable def scenACfg : Config ℝ :=
  { currentAge := 30
    targetAge := 65
    startYear := 2025
    monthsTotal := 420
    retirementM := 420
    includeSchedule := true
    granularity := "monthly"
    stopWhenDepleted := true
    monthlyContrib := 1000
    monthlyExpenses := 0
    swr := 4 / 100
    rebalanceEvery := 12
    assetMret := [("equity", scenARate)]
    targetWeights := [("equity", 1)]
    initByAsset := [("equity", 10000)] }

lemma scenABuild :
    buildAssetMret ann_to_monthly scenAArgs.assumptions []
      scenAArgs.portfolioBreakdown = .ok [("equity", scenARate)] := by
  have hlk : lookupKV ASSET_KEY_TO_RETURN "equity" = some "equityReturnAnnualPct" := rfl
  show buildAssetMret ann_to_monthly scenAAssum [] [("equity", 10000)]
      = .ok [("equity", scenARate)]
  rw [buildAssetMret_cons_some ann_to_monthly scenAAssum [] 10000 [] hlk,
    buildAssetMret_nil]
  unfold scenARate scenAAssum
  norm_num [assumptionsGet, pyInsert]

lemma scenACfgOf : cfgOf ann_to_monthly scenAArgs = .ok scenACfg := by
  rw [cfgOf_eq_ok scenABuild]
  apply congrArg
  unfold mkConfig scenAArgs scenAAssum scenACfg totalInitOf
  norm_num [pyDict, pyInsert, totalBalance, Config.mk.injEq]

lemma scenARate_pos : 0 < 1 + scenARate :=
  one_add_ann_to_monthly_pos (by norm_num)

/-- One accumulation period of Scenario A: the single equity bucket stays a
singleton with positive balance, one accumulation-phase record is appended,
the sustainable withdrawal stays unset, and the loop does not stop. -/
lemma scenAStep (m : ℕ) (hm : m < 420) (x : ℝ) (hx : 0 < x)
    (rs : List (PeriodRecord ℝ)) (a : ℤ) :
    ∃ (y : ℝ) (r : PeriodRecord ℝ), 0 < y ∧ r.phase = "accumulation" ∧
      step scenACfg ⟨[("equity", x)], rs, a, none, none, false⟩ m
        = ⟨[("equity", y)], rs ++ [r],
            (if (m + 1) % 12 = 0 then a + 1 else a), none, none, false⟩ := by
  have hmz : (m : ℤ) < 420 := by exact_mod_cast hm
  have hcw : contribWd scenACfg ⟨[("equity", x)], rs, a, none, none, false⟩ m
      = (1000, 0, none) := by
    unfold contribWd
    rw [if_pos (show (m : ℤ) < scenACfg.retirementM from hmz)]
    rfl
  have hpcf : postCashFlow scenACfg ⟨[("equity", x)], rs, a, none, none, false⟩ m
      = [("equity", x + 1000)] := by
    unfold postCashFlow
    rw [hcw, applyCashFlow_eq,
      if_pos (show totalBalance [("equity", x)] > 0 by
        simpa [totalBalance] using hx)]
    have hmax : max (0 : ℝ) (x + 1000) = x + 1000 := max_eq_right (by linarith)
    simp [totalBalance, div_self (ne_of_gt hx), hmax]
  have hpg : postGrowth scenACfg ⟨[("equity", x)], rs, a, none, none, false⟩ m
      = [("equity", (x + 1000) * (1 + scenARate))] := by
    unfold postGrowth applyGrowth
    rw [hpcf]
    simp [scenACfg, lookupKV]
  have hy : 0 < (x + 1000) * (1 + scenARate) :=
    mul_pos (by linarith) scenARate_pos
  have hend : endBalOf scenACfg ⟨[("equity", x)], rs, a, none, none, false⟩ m
      = (x + 1000) * (1 + scenARate) := by
    unfold endBalOf
    rw [hpg]
    simp [totalBalance]
  have hpr : ∃ y, 0 < y ∧
      postRebalance scenACfg ⟨[("equity", x)], rs, a, none, none, false⟩ m
        = [("equity", y)] := by
    unfold postRebalance
    split
    · refine ⟨(x + 1000) * (1 + scenARate), hy, ?_⟩
      rw [hpg, rebalance_eq,
        if_neg (by simp only [totalBalance_cons, totalBalance_nil, add_zero]; linarith)]
      show List.foldl _ _ scenACfg.targetWeights = _
      rw [show scenACfg.targetWeights = [("equity", (1 : ℝ))] from rfl]
      simp [pyInsert, totalBalance]
    · exact ⟨(x + 1000) * (1 + scenARate), hy, hpg⟩
  obtain ⟨y, hy2, hpr2⟩ := hpr
  refine ⟨y,
    monthlyRecord scenACfg m (30 + (m : ℤ) / 12) 1000 0 ((x + 1000) * (1 + scenARate)),
    hy2, ?_, ?_⟩
  · show (if (m : ℤ) ≥ scenACfg.retirementM then "retirement" else "accumulation")
        = "accumulation"
    rw [if_neg (by rw [show scenACfg.retirementM = 420 from rfl]; omega)]
  · unfold step
    rw [if_neg (by
      rw [hend]
      intro hcon
      exact absurd hcon.1 (not_le.mpr hy))]
    unfold recordAndAdvance
    rw [hcw, hpr2, hend]
    norm_num [scenACfg]

/-- The Scenario A loop from any accumulation month: record count grows by
exactly the executed fuel, every record is accumulation-phase, and the
sustainable withdrawal stays unset. -/
lemma scenARun : ∀ (fuel m : ℕ), fuel + m = 420 → ∀ (x : ℝ), 0 < x →
    ∀ (rs : List (PeriodRecord ℝ)) (a : ℤ), (∀ r ∈ rs, r.phase = "accumulation") →
    (runLoop scenACfg fuel m ⟨[("equity", x)], rs, a, none, none, false⟩).results.length
        = rs.length + fuel
      ∧ (∀ r ∈ (runLoop scenACfg fuel m
          ⟨[("equity", x)], rs, a, none, none, false⟩).results,
            r.phase = "accumulation")
      ∧ (runLoop scenACfg fuel m
          ⟨[("equity", x)], rs, a, none, none, false⟩).sustainable = none
  | 0, m, hfm, x, hx, rs, a, hph => by
    refine ⟨by simp [runLoop], ?_, rfl⟩
    intro r hr
    exact hph r hr
  | fuel + 1, m, hfm, x, hx, rs, a, hph => by
    have hm : m < 420 := by omega
    obtain ⟨y, r, hy, hrphase, hstep⟩ := scenAStep m hm x hx rs a
    rw [runLoop, if_neg (by simp),
      if_pos (show (m : ℤ) < scenACfg.monthsTotal by
        rw [show scenACfg.monthsTotal = 420 from rfl]
        exact_mod_cast hm), hstep]
    have hph2 : ∀ r2 ∈ rs ++ [r], r2.phase = "accumulation" := by
      intro r2 h2
      rcases List.mem_append.mp h2 with h3 | h3
      · exact hph r2 h3
      · rw [List.mem_singleton.mp h3]
        exact hrphase
    have ih := scenARun fuel (m + 1) (by omega) y hy (rs ++ [r])
      (if (m + 1) % 12 = 0 then a + 1 else a) hph2
    refine ⟨?_, ih.2.1, ih.2.2⟩
    rw [ih.1, List.length_append]
    simp
    omega

/-! ## The claims -/

/-- C1 (counterexample): for the Scenario A input the claim asserts a
non-null sustainableMonthlySpend computed at absolute month 420; but
monthsTotal = min((95-30)*12, 35*12) = 420 = retirementMonthIndex, so the
loop runs months 0..419 only, never enters retirement, and the metric is
null. -/
theorem C1_counterexample :
    (realCompute scenAArgs).map (fun r => r.metrics.sustainableMonthlySpend)
      = .ok none := by
  rw [show realCompute scenAArgs = compute_projection ann_to_monthly scenAArgs
    from rfl, compute_ok scenAArgs scenACfgOf]
  show Except.ok ((mkMetrics scenACfg (finalState scenACfg)).sustainableMonthlySpend)
      = Except.ok none
  rw [mkMetrics_sustainable]
  apply congrArg
  show (runLoop scenACfg 420 0 (initState scenACfg)).sustainable = none
  apply runLoop_sustainable_none scenACfg 420 0 _ rfl
  rw [show scenACfg.retirementM = 420 from rfl]
  norm_num

/-- C1 (amended): for the Scenario A input, compute_projection returns
exactly 420 records, all of them accumulation-phase (no retirement records),
and the sustainableMonthlySpend metric is null, because the default
horizonYears = 35 caps monthsTotal at 420 = retirementMonthIndex and the
loop never executes a retirement month. -/
theorem C1_scenarioA :
    ∃ r, realCompute scenAArgs = .ok r
      ∧ r.projectionResults.length = 420
      ∧ (∀ rec ∈ r.projectionResults, rec.phase = "accumulation")
      ∧ r.metrics.sustainableMonthlySpend = none := by
  refine ⟨_, compute_ok scenAArgs scenACfgOf, ?_, ?_, ?_⟩
  · have h := (scenARun 420 0 rfl 10000 (by norm_num) [] 30 (by simp)).1
    show (runLoop scenACfg 420 0 (initState scenACfg)).results.length = 420
    exact h
  · have h := (scenARun 420 0 rfl 10000 (by norm_num) [] 30 (by simp)).2.1
    intro rec hrec
    exact h rec hrec
  · have h := (scenARun 420 0 rfl 10000 (by norm_num) [] 30 (by simp)).2.2
    show (runLoop scenACfg 420 0 (initState scenACfg)).sustainable = none
    exact h

/-- C9: compute_projection is deterministic: two invocations on identical
input values produce identical outputs, with no dependence on wall clock,
randomness, or external state — the engine is embedded as a pure total
function of its argument. -/
theorem C9_determinism (a1 a2 : Args ℝ) (h : a1 = a2) :
    realCompute a1 = realCompute a2 := by
  rw [h]

theorem C9_determinism_witness :
    simpleArgs = simpleArgs ∧ realCompute simpleArgs = realCompute simpleArgs :=
  ⟨rfl, C9_determinism simpleArgs simpleArgs rfl⟩

/-- C3: in every run that reaches the retirement phase, the sustainable
withdrawal is set exactly once — lazily, in the first period whose month
index is ≥ retirementMonthIndex — to (total balance at that instant *
swrPct / 100) / 12, and it is never recomputed for the rest of the run;
the sustainableMonthlySpend metric equals this frozen value, or null if
retirement was never reached (because monthsTotal ≤ retirementMonthIndex or
the loop stopped earlier). -/
theorem C3_sustainable_frozen (args : Args ℝ) (cfg : Config ℝ)
    (hcfg : cfgOf ann_to_monthly args = .ok cfg) :
    (∀ (v : ℝ) (fuel m : ℕ) (st : SimState ℝ), st.sustainable = some v →
      (runLoop cfg fuel m st).sustainable = some v)
    ∧ (cfg.monthsTotal ≤ cfg.retirementM →
        ∀ r, compute_projection ann_to_monthly args = .ok r →
          r.metrics.sustainableMonthlySpend = none)
    ∧ ((stateAt cfg cfg.retirementM.toNat).stopped = true →
        ∀ r, compute_projection ann_to_monthly args = .ok r →
          r.metrics.sustainableMonthlySpend = none)
    ∧ (cfg.retirementM < cfg.monthsTotal →
        (stateAt cfg cfg.retirementM.toNat).stopped = false →
        ∀ r, compute_projection ann_to_monthly args = .ok r →
          r.metrics.sustainableMonthlySpend
            = some (totalBalance (stateAt cfg cfg.retirementM.toNat).byAsset
                * (args.assumptions.swrPct / 100) / 12)) := by
  obtain ⟨mret, hb, rfl⟩ := cfgOf_ok_elim hcfg
  have h0 : (0 : ℤ) ≤ (mkConfig args mret).retirementM := le_max_left 0 _
  have hnone : ∀ fuel : ℕ,
      ((0 : ℕ) : ℤ) + fuel ≤ (mkConfig args mret).retirementM →
      (stateAt (mkConfig args mret) fuel).sustainable = none :=
    fun fuel hf => runLoop_sustainable_none _ fuel 0 _ rfl hf
  refine ⟨?_, ?_, ?_, ?_⟩
  · intro v fuel m st h
    exact runLoop_sustainable_some _ fuel m st h
  · intro hle r hr
    rw [compute_ok_elim hcfg hr, mkMetrics_sustainable]
    exact hnone _ (by push_cast; omega)
  · intro hstop r hr
    rw [compute_ok_elim hcfg hr, mkMetrics_sustainable]
    rcases le_or_lt (mkConfig args mret).monthsTotal
        (mkConfig args mret).retirementM with hle | hlt
    · exact hnone _ (by push_cast; omega)
    · rw [finalState_decomp _ hlt h0, runLoop_stopped _ _ _ hstop]
      exact hnone _ (by push_cast; omega)
  · intro hlt hstop r hr
    rw [compute_ok_elim hcfg hr, mkMetrics_sustainable]
    have hsn := hnone (mkConfig args mret).retirementM.toNat (by push_cast; omega)
    have hrest : (mkConfig args mret).monthsTotal.toNat
          - (mkConfig args mret).retirementM.toNat
        = ((mkConfig args mret).monthsTotal.toNat
          - (mkConfig args mret).retirementM.toNat - 1) + 1 := by omega
    rw [finalState_decomp _ hlt h0, hrest, runLoop]
    rw [if_neg (by simp [hstop])]
    rw [if_pos (by rw [Int.toNat_of_nonneg h0]; exact hlt)]
    apply runLoop_sustainable_some
    rw [step_sets_sustainable _ _ _ (by rw [Int.toNat_of_nonneg h0]; exact lt_irrefl _) hsn]
    rfl

theorem C3_sustainable_frozen_witness :
    cfgOf ann_to_monthly simpleArgs = .ok simpleCfg
    ∧ simpleCfg.retirementM < simpleCfg.monthsTotal
    ∧ (stateAt simpleCfg simpleCfg.retirementM.toNat).stopped = false
    ∧ (mkMetrics simpleCfg (finalState simpleCfg)).sustainableMonthlySpend
        = some (totalBalance (stateAt simpleCfg simpleCfg.retirementM.toNat).byAsset
            * (simpleArgs.assumptions.swrPct / 100) / 12) := by
  refine ⟨simpleCfgOf, by norm_num [simpleCfg], rfl, ?_⟩
  exact (C3_sustainable_frozen simpleArgs simpleCfg simpleCfgOf).2.2.2
    (by norm_num [simpleCfg]) rfl _ (compute_ok simpleArgs simpleCfgOf)

/-- C4: for every valid input (non-negative initial bucket balances) and
every state reachable during a run, rebalance() leaves the total balance
unchanged (exactly, in the idealized arithmetic), and afterwards each
bucket's share of the total equals the target weight frozen at t=0 whenever
the total is positive; if the current total is ≤ 0 every bucket is set to
zero. -/
theorem C4_rebalance (args : Args ℝ) (cfg : Config ℝ)
    (hcfg : cfgOf ann_to_monthly args = .ok cfg)
    (hnn : ∀ kv ∈ args.portfolioBreakdown, 0 ≤ kv.2) (n : ℕ) :
    totalBalance (rebalance cfg.targetWeights (stateAt cfg n).byAsset)
      = totalBalance (stateAt cfg n).byAsset
    ∧ (0 < totalBalance (stateAt cfg n).byAsset →
        ∀ kv ∈ rebalance cfg.targetWeights (stateAt cfg n).byAsset,
          kv.2 / totalBalance (rebalance cfg.targetWeights (stateAt cfg n).byAsset)
            = (lookupKV cfg.targetWeights kv.1).getD 0)
    ∧ (totalBalance (stateAt cfg n).byAsset ≤ 0 →
        ∀ kv ∈ rebalance cfg.targetWeights (stateAt cfg n).byAsset, kv.2 = 0) := by
  obtain ⟨mret, hb, rfl⟩ := cfgOf_ok_elim hcfg
  have hdict : ∀ kv ∈ pyDict args.portfolioBreakdown, 0 ≤ kv.2 := pyDict_val hnn
  have hfac : ∀ kv ∈ mret, 0 ≤ 1 + kv.2 :=
    buildAssetMret_val (P := fun v => 0 ≤ 1 + v)
      (fun rk => one_add_ann_to_monthly_nonneg _) _ [] mret (by simp) hb
  have hba := stateAt_nonneg hnn hfac n
  have hkeys : (stateAt (mkConfig args mret) n).byAsset.map Prod.fst
      = (mkConfig args mret).targetWeights.map Prod.fst := stateAt_keys args mret n
  have hnd := (mkConfig_keysOK args mret).2
  have hbn : 0 ≤ totalBalance (stateAt (mkConfig args mret) n).byAsset :=
    totalBalance_nonneg hba
  rcases eq_or_lt_of_le (totalBalance_nonneg hdict) with hz | hpos
  · have hz2 : ∀ kv ∈ pyDict args.portfolioBreakdown, kv.2 = 0 :=
      all_zero_of_sum_zero hdict hz.symm
    have hzi := (zeroInv_stateAt args mret hz2 n).1
    have htb : totalBalance (stateAt (mkConfig args mret) n).byAsset = 0 :=
      totalBalance_eq_zero hzi
    refine ⟨?_, ?_, ?_⟩
    · rw [rebalance_nonpos (le_of_eq htb), totalBalance_map_zero, htb]
    · intro hp
      rw [htb] at hp
      exact absurd hp (lt_irrefl 0)
    · intro _ kv hkv
      rw [rebalance_nonpos (le_of_eq htb)] at hkv
      simp only [List.mem_map] at hkv
      obtain ⟨kw, _, rfl⟩ := hkv
      rfl
  · have hsum := targetWeights_sum_one args mret hpos
    have htot := totalBalance_rebalance hkeys hnd hsum hbn
    refine ⟨htot, ?_, ?_⟩
    · intro hp kv hkv
      rw [rebalance_pos hp hkeys hnd] at hkv
      simp only [List.mem_map] at hkv
      obtain ⟨kw, hkw, rfl⟩ := hkv
      rw [htot, mem_lookupKV_of_nodup hnd (show (kw.1, kw.2) ∈ _ from hkw)]
      simp only [Option.getD_some]
      exact mul_div_cancel_left₀ kw.2 (ne_of_gt hp)
    · intro hle kv hkv
      rw [rebalance_nonpos hle] at hkv
      simp only [List.mem_map] at hkv
      obtain ⟨kw, _, rfl⟩ := hkv
      rfl

theorem C4_rebalance_witness :
    cfgOf ann_to_monthly simpleArgs = .ok simpleCfg
    ∧ (∀ kv ∈ simpleArgs.portfolioBreakdown, 0 ≤ kv.2)
    ∧ totalBalance (rebalance simpleCfg.targetWeights (stateAt simpleCfg 0).byAsset)
        = totalBalance (stateAt simpleCfg 0).byAsset :=
  ⟨simpleCfgOf, simpleArgs_breakdown_nonneg,
    (C4_rebalance simpleArgs simpleCfg simpleCfgOf simpleArgs_breakdown_nonneg 0).1⟩

/-- C10: assuming every initial bucket balance is ≥ 0 and every annual
return percentage present in the assumptions is > -100, every per-bucket
balance is ≥ 0 in every reachable state and after each period's cash flow
and growth (each bucket is clamped at 0 after the cash flow and the growth
factor is positive), every recorded endBalance is ≥ 0, and the exhaustion
condition `total ≤ 0` can only trigger with total exactly 0. -/
theorem C10_balances_nonneg (args : Args ℝ) (cfg : Config ℝ)
    (hcfg : cfgOf ann_to_monthly args = .ok cfg)
    (hnn : ∀ kv ∈ args.portfolioBreakdown, 0 ≤ kv.2)
    (hret : ReturnsAboveNeg100 args.assumptions) (n : ℕ) :
    (∀ kv ∈ (stateAt cfg n).byAsset, 0 ≤ kv.2)
    ∧ (∀ kv ∈ postGrowth cfg (stateAt cfg n) n, 0 ≤ kv.2)
    ∧ (∀ k, 0 < 1 + (lookupKV cfg.assetMret k).getD 0)
    ∧ 0 ≤ endBalOf cfg (stateAt cfg n) n
    ∧ (∀ r ∈ (stateAt cfg n).results, 0 ≤ r.endBalance)
    ∧ (endBalOf cfg (stateAt cfg n) n ≤ 0 → endBalOf cfg (stateAt cfg n) n = 0) := by
  obtain ⟨mret, hb, rfl⟩ := cfgOf_ok_elim hcfg
  have hfac : ∀ kv ∈ mret, 0 ≤ 1 + kv.2 :=
    buildAssetMret_val (P := fun v => 0 ≤ 1 + v)
      (fun rk => one_add_ann_to_monthly_nonneg _) _ [] mret (by simp) hb
  have hfacpos : ∀ kv ∈ mret, 0 < 1 + kv.2 := by
    refine buildAssetMret_val (P := fun v => 0 < 1 + v) ?_ _ [] mret (by simp) hb
    intro rk
    apply one_add_ann_to_monthly_pos
    cases hga : assumptionsGet args.assumptions rk with
    | none => norm_num
    | some v =>
      have hv := hret rk v hga
      simp only [Option.getD_some]
      linarith
  have h1 := stateAt_nonneg hnn hfac n
  have h2 : ∀ kv ∈ postGrowth (mkConfig args mret) (stateAt (mkConfig args mret) n) n,
      0 ≤ kv.2 := by
    unfold postGrowth postCashFlow
    exact applyGrowth_nonneg (applyCashFlow_nonneg h1) (lookup_getD_factor hfac)
  have h4 : 0 ≤ endBalOf (mkConfig args mret) (stateAt (mkConfig args mret) n) n :=
    totalBalance_nonneg h2
  exact ⟨h1, h2, lookup_getD_factor_pos hfacpos,
    h4, stateAt_results_nonneg args mret hnn hfac n,
    fun hle => le_antisymm hle h4⟩

/-- C2 (counterexample): with a breakdown totalling 0 and monthly
contributions of 1000, the run does not error, but the contributions do NOT
land in the buckets: the cash-flow block is skipped whenever the pre-flow
total is ≤ 0, so the single recorded period (with contribution 1000) ends
with balance 0, exhaustion fires immediately at age 30, and the loop stops
— the total never increases by the contributions. -/
theorem C2_counterexample :
    (∀ kv ∈ zeroArgs.portfolioBreakdown, kv.2 = 0)
    ∧ zeroArgs.monthlyContributions = 1000
    ∧ (realCompute zeroArgs).map
        (fun r => (r.projectionResults.map (fun rec => rec.endBalance),
          r.metrics.estimatedExhaustionAge))
      = .ok ([0], some 30) := by
  refine ⟨?_, rfl, ?_⟩
  · intro kv hkv
    have h : kv = ("equity", (0 : ℝ)) := by simpa [zeroArgs] using hkv
    rw [h]
  · rw [show realCompute zeroArgs = compute_projection ann_to_monthly zeroArgs
      from rfl, compute_ok zeroArgs zeroCfgOf]
    show Except.ok ((finalState zeroCfg).results.map (fun rec => rec.endBalance),
        (mkMetrics zeroCfg (finalState zeroCfg)).estimatedExhaustionAge) = _
    rw [mkMetrics_exhaustion, zeroFinal]
    simp [zeroRec0]

/-- C2 (amended): for every input whose breakdown balances are all 0 (with
known asset classes), the run does not error and target weights are computed
with the divisor pinned to 1.0 — so each weight equals its (zero) initial
balance — but contributions are dropped, not distributed: the cash-flow
block is skipped because every period's pre-flow total is 0, every recorded
endBalance is 0, and the sustainable spend, if ever frozen, is 0. -/
theorem C2_zero_total (args : Args ℝ)
    (h0 : ∀ kv ∈ args.portfolioBreakdown, kv.2 = 0)
    (hk : ∀ kv ∈ args.portfolioBreakdown,
      (lookupKV ASSET_KEY_TO_RETURN kv.1).isSome = true) :
    ∃ cfg r, cfgOf ann_to_monthly args = .ok cfg ∧ realCompute args = .ok r
      ∧ cfg.targetWeights
          = (pyDict args.portfolioBreakdown).map (fun kv => (kv.1, kv.2 / 1))
      ∧ (∀ kv ∈ cfg.targetWeights, kv.2 = 0)
      ∧ (∀ rec ∈ r.projectionResults, rec.endBalance = 0)
      ∧ (r.metrics.sustainableMonthlySpend = none
          ∨ r.metrics.sustainableMonthlySpend = some 0) := by
  obtain ⟨mret, hm⟩ := buildAssetMret_ok_of_known ann_to_monthly args.assumptions
    args.portfolioBreakdown [] hk
  have hdz : ∀ kv ∈ pyDict args.portfolioBreakdown, kv.2 = 0 :=
    pyDict_val (P := fun v => v = 0) h0
  have htot : totalBalance (pyDict args.portfolioBreakdown) = 0 :=
    totalBalance_eq_zero hdz
  have htiv : totalInitOf args = 1 := by
    unfold totalInitOf
    rw [if_pos htot]
  have hzi := zeroInv_stateAt args mret hdz (mkConfig args mret).monthsTotal.toNat
  refine ⟨mkConfig args mret, _, cfgOf_eq_ok hm, compute_ok args (cfgOf_eq_ok hm),
    ?_, ?_, ?_, ?_⟩
  · rw [mkConfig_targetWeights, htiv]
  · rw [mkConfig_targetWeights]
    intro kv hkv
    simp only [List.mem_map] at hkv
    obtain ⟨kw, hkw, rfl⟩ := hkv
    simp [hdz kw hkw]
  · intro rec hrec
    exact hzi.2.1 rec hrec
  · exact hzi.2.2

theorem C2_zero_total_witness :
    (∀ kv ∈ zeroArgs.portfolioBreakdown, kv.2 = 0)
    ∧ (∀ kv ∈ zeroArgs.portfolioBreakdown,
        (lookupKV ASSET_KEY_TO_RETURN kv.1).isSome = true)
    ∧ ∃ cfg r, cfgOf ann_to_monthly zeroArgs = .ok cfg
        ∧ realCompute zeroArgs = .ok r
        ∧ cfg.targetWeights
            = (pyDict zeroArgs.portfolioBreakdown).map (fun kv => (kv.1, kv.2 / 1))
        ∧ (∀ kv ∈ cfg.targetWeights, kv.2 = 0)
        ∧ (∀ rec ∈ r.projectionResults, rec.endBalance = 0)
        ∧ (r.metrics.sustainableMonthlySpend = none
            ∨ r.metrics.sustainableMonthlySpend = some 0) := by
  have h0 : ∀ kv ∈ zeroArgs.portfolioBreakdown, kv.2 = 0 := by
    intro kv hkv
    have h : kv = ("equity", (0 : ℝ)) := by simpa [zeroArgs] using hkv
    rw [h]
  have hk : ∀ kv ∈ zeroArgs.portfolioBreakdown,
      (lookupKV ASSET_KEY_TO_RETURN kv.1).isSome = true := by
    intro kv hkv
    have h : kv = ("equity", (0 : ℝ)) := by simpa [zeroArgs] using hkv
    rw [h]
    rfl
  exact ⟨h0, hk, C2_zero_total zeroArgs h0 hk⟩

/-- C5 (counterexample): at yearly granularity, with stopWhenDepleted and
includeSchedule both set, a run that depletes in its first period records
the exhaustion age and terminates, but appends NO final schedule record —
the break branch only appends a record when the granularity is monthly
(line 102), contradicting the claim's "at either granularity". -/
theorem C5_counterexample :
    zeroCfgY.stopWhenDepleted = true
    ∧ zeroCfgY.includeSchedule = true
    ∧ zeroCfgY.granularity = "yearly"
    ∧ (realCompute zeroArgsY).map
        (fun r => (r.projectionResults.length, r.metrics.estimatedExhaustionAge))
      = .ok (0, some 30) := by
  refine ⟨rfl, rfl, rfl, ?_⟩
  rw [show realCompute zeroArgsY = compute_projection ann_to_monthly zeroArgsY
    from rfl, compute_ok zeroArgsY zeroCfgOfY]
  show Except.ok ((finalState zeroCfgY).results.length,
      (mkMetrics zeroCfgY (finalState zeroCfgY)).estimatedExhaustionAge) = _
  rw [mkMetrics_exhaustion, zeroFinalY]
  rfl

/-- C5 (amended): after a period's cash flow and growth, if the total is ≤ 0
and no exhaustion was recorded earlier, the current (pre-increment) age is
recorded as the exhaustion age and never changes later; if stopWhenDepleted
is set the loop stops immediately and one final schedule record is appended
ONLY when includeSchedule is set AND the granularity is monthly (at yearly
granularity no final record is appended); if stopWhenDepleted is not set the
loop continues. -/
theorem C5_exhaustion (cfg : Config ℝ) (st : SimState ℝ) (m : ℕ)
    (h1 : st.exhaustionAge = none) (h2 : endBalOf cfg st m ≤ 0) :
    (cfg.stopWhenDepleted = true →
      (step cfg st m).stopped = true
      ∧ (step cfg st m).exhaustionAge = some st.age
      ∧ (step cfg st m).results = st.results ++
          (if cfg.includeSchedule ∧ cfg.granularity = "monthly" then
            [monthlyRecord cfg m st.age (contribWd cfg st m).1
              (contribWd cfg st m).2.1 (endBalOf cfg st m)]
          else []))
    ∧ (cfg.stopWhenDepleted = false →
      (step cfg st m).stopped = false
      ∧ (step cfg st m).exhaustionAge = some st.age)
    ∧ (∀ (fuel m2 : ℕ) (st2 : SimState ℝ) (a : ℤ), st2.exhaustionAge = some a →
        (runLoop cfg fuel m2 st2).exhaustionAge = some a) := by
  refine ⟨?_, ?_, fun fuel m2 st2 a h => runLoop_exhaustion_some cfg fuel m2 st2 h⟩
  · intro hstop
    unfold step
    rw [if_pos ⟨h2, h1⟩, if_pos hstop]
    exact ⟨rfl, rfl, rfl⟩
  · intro hstop
    unfold step
    rw [if_pos ⟨h2, h1⟩, if_neg (by simp [hstop])]
    exact ⟨rfl, rfl⟩

theorem C5_exhaustion_witness :
    (initState zeroCfg).exhaustionAge = none
    ∧ endBalOf zeroCfg (initState zeroCfg) 0 ≤ 0
    ∧ (zeroCfg.stopWhenDepleted = true →
        (step zeroCfg (initState zeroCfg) 0).stopped = true
        ∧ (step zeroCfg (initState zeroCfg) 0).exhaustionAge
            = some (initState zeroCfg).age
        ∧ (step zeroCfg (initState zeroCfg) 0).results
            = (initState zeroCfg).results ++
              (if zeroCfg.includeSchedule ∧ zeroCfg.granularity = "monthly" then
                [monthlyRecord zeroCfg 0 (initState zeroCfg).age
                  (contribWd zeroCfg (initState zeroCfg) 0).1
                  (contribWd zeroCfg (initState zeroCfg) 0).2.1
                  (endBalOf zeroCfg (initState zeroCfg) 0)]
              else [])) :=
  ⟨rfl, zeroEndBal.le,
    (C5_exhaustion zeroCfg (initState zeroCfg) 0 rfl zeroEndBal.le).1⟩

lemma cfgOf_eq_error {annToMonthly : K → K} {args : Args K} {e : String}
    (h : buildAssetMret annToMonthly args.assumptions [] args.portfolioBreakdown
      = .error e) : cfgOf annToMonthly args = .error e := by
  unfold cfgOf
  rw [h]

lemma mkMetrics_par_monthly (cfg : Config K) (st : SimState K)
    (hinc : cfg.includeSchedule = true) (hgr : cfg.granularity = "monthly") :
    (mkMetrics cfg st).portfolioAtRetirement
      = (if max 0 (cfg.retirementM - 1) < (st.results.length : ℤ) then
          (listGetIdx st.results (max 0 (cfg.retirementM - 1)).toNat).map
            (fun r => r.endBalance)
        else none) := by
  unfold mkMetrics
  simp [hinc, hgr]

/-- An input whose breakdown names an asset class outside the
`ASSET_KEY_TO_RETURN` table. -/
noncomputable def errArgs : Args ℝ :=
  { currentAge := 30
    targetRetirementAge := 65
    startCalendarYear := none
    horizonYears := none
    lifeExpectancyAge := none
    includeSchedule := none
    scheduleGranularity := none
    stopWhenDepleted := none
    monthlyContributions := 0
    monthlyExpenses := none
    portfolioBreakdown := [("crypto", 5)]
    assumptions := simpleAssum }

/-- C6 (counterexample): the breakdown references the class "equity", whose
matching assumption key "equityReturnAnnualPct" is absent from the
assumptions dict, yet the engine does not fail: it runs the full simulation
and produces schedule records (the missing return silently defaults to 0.0
via `assumptions.get(..., 0.0)`). -/
theorem C6_counterexample :
    assumptionsGet simpleArgs.assumptions "equityReturnAnnualPct" = none
    ∧ simpleArgs.portfolioBreakdown = [("equity", 100)]
    ∧ lookupKV ASSET_KEY_TO_RETURN "equity" = some "equityReturnAnnualPct"
    ∧ (realCompute simpleArgs).isOk = true
    ∧ (realCompute simpleArgs).map (fun r => r.projectionResults.isEmpty)
        = .ok false := by
  have hco : realCompute simpleArgs
      = .ok { metrics := mkMetrics simpleCfg (finalState simpleCfg)
              projectionResults := (finalState simpleCfg).results } :=
    compute_ok simpleArgs simpleCfgOf
  obtain ⟨tl, htl⟩ := simpleFinal_results
  refine ⟨rfl, rfl, rfl, by rw [hco]; rfl, ?_⟩
  rw [hco]
  show Except.ok ((finalState simpleCfg).results.isEmpty) = Except.ok false
  rw [htl]
  rfl

/-- C6 (amended): the engine fails before any simulation step exactly when
the breakdown references an asset class with no entry in the
`ASSET_KEY_TO_RETURN` table (i.e. outside equity/bond/cash/alt); a known
class whose return key is merely absent from the assumptions dict does not
fail — its annual return defaults to 0.0. -/
theorem C6_unknown_class_errors (args : Args ℝ) :
    ((∃ kv ∈ args.portfolioBreakdown, lookupKV ASSET_KEY_TO_RETURN kv.1 = none) →
      ∃ e, realCompute args = .error e)
    ∧ ((∀ kv ∈ args.portfolioBreakdown,
          (lookupKV ASSET_KEY_TO_RETURN kv.1).isSome = true) →
      ∃ r, realCompute args = .ok r) := by
  constructor
  · intro h
    obtain ⟨kv, hkv, hnone⟩ := h
    obtain ⟨e, he⟩ := buildAssetMret_error_of_unknown ann_to_monthly
      args.assumptions args.portfolioBreakdown [] kv hkv hnone
    refine ⟨e, ?_⟩
    show compute_projection ann_to_monthly args = .error e
    unfold compute_projection
    rw [cfgOf_eq_error he]
    rfl
  · intro h
    obtain ⟨mret, hm⟩ := buildAssetMret_ok_of_known ann_to_monthly
      args.assumptions args.portfolioBreakdown [] h
    exact ⟨_, compute_ok args (cfgOf_eq_ok hm)⟩

theorem C6_unknown_class_errors_witness :
    (∃ kv ∈ errArgs.portfolioBreakdown, lookupKV ASSET_KEY_TO_RETURN kv.1 = none)
    ∧ ∃ e, realCompute errArgs = .error e := by
  have hx : ∃ kv ∈ errArgs.portfolioBreakdown,
      lookupKV ASSET_KEY_TO_RETURN kv.1 = none :=
    ⟨("crypto", 5), by simp [errArgs], by decide⟩
  exact ⟨hx, (C6_unknown_class_errors errArgs).1 hx⟩

/-- C7 (counterexample): with retirementMonthIndex = 0, monthly granularity
and a nonempty schedule, the code reads the record at index
`max(0, retirementMonthIndex - 1) = 0` and returns its endBalance (here 100)
— not null as the claim states for `retirementMonthIndex = 0`. -/
theorem C7_counterexample :
    simpleCfg.retirementM = 0
    ∧ (realCompute simpleArgs).map (fun r => r.metrics.portfolioAtRetirement)
        = .ok (some 100) := by
  refine ⟨rfl, ?_⟩
  obtain ⟨tl, htl⟩ := simpleFinal_results
  rw [show realCompute simpleArgs = compute_projection ann_to_monthly simpleArgs
      from rfl,
    compute_ok simpleArgs simpleCfgOf]
  show Except.ok ((mkMetrics simpleCfg (finalState simpleCfg)).portfolioAtRetirement)
      = Except.ok (some 100)
  rw [mkMetrics_par_monthly simpleCfg _ rfl rfl, htl]
  rw [if_pos (by
    rw [show max 0 (simpleCfg.retirementM - 1) = 0 from by decide]
    rw [List.length_cons]
    push_cast
    omega)]
  rw [show (max 0 (simpleCfg.retirementM - 1)).toNat = 0 from by decide]
  rfl

/-- C7 (amended): portfolioAtRetirement equals the endBalance of the record
at index `max(0, retirementMonthIndex - 1)` (monthly granularity) or at
index `targetRetirementAge - currentAge - 1` (yearly granularity, guarded to
be ≥ 0 and within range) when such a record exists, and is null otherwise —
in particular null when the schedule is shorter than that index or when no
schedule was recorded. -/
theorem C7_portfolioAtRetirement (args : Args ℝ) (cfg : Config ℝ)
    (hcfg : cfgOf ann_to_monthly args = .ok cfg) :
    ∃ r, realCompute args = .ok r ∧
      r.metrics.portfolioAtRetirement =
        (if cfg.includeSchedule = true then
          if cfg.granularity = "monthly" then
            if max 0 (cfg.retirementM - 1) < (r.projectionResults.length : ℤ) then
              (listGetIdx r.projectionResults (max 0 (cfg.retirementM - 1)).toNat).map
                (fun rec => rec.endBalance)
            else none
          else
            if 0 ≤ max 0 (cfg.targetAge - cfg.currentAge) - 1
                ∧ max 0 (cfg.targetAge - cfg.currentAge) - 1
                  < (r.projectionResults.length : ℤ) then
              (listGetIdx r.projectionResults
                (max 0 (cfg.targetAge - cfg.currentAge) - 1).toNat).map
                (fun rec => rec.endBalance)
            else none
        else none) :=
  ⟨_, compute_ok args hcfg, rfl⟩

theorem C7_portfolioAtRetirement_witness :
    cfgOf ann_to_monthly simpleArgs = .ok simpleCfg
    ∧ ∃ r, realCompute simpleArgs = .ok r ∧
        r.metrics.portfolioAtRetirement =
          (if simpleCfg.includeSchedule = true then
            if simpleCfg.granularity = "monthly" then
              if max 0 (simpleCfg.retirementM - 1)
                  < (r.projectionResults.length : ℤ) then
                (listGetIdx r.projectionResults
                  (max 0 (simpleCfg.retirementM - 1)).toNat).map
                  (fun rec => rec.endBalance)
              else none
            else
              if 0 ≤ max 0 (simpleCfg.targetAge - simpleCfg.currentAge) - 1
                  ∧ max 0 (simpleCfg.targetAge - simpleCfg.currentAge) - 1
                    < (r.projectionResults.length : ℤ) then
                (listGetIdx r.projectionResults
                  (max 0 (simpleCfg.targetAge - simpleCfg.currentAge) - 1).toNat).map
                  (fun rec => rec.endBalance)
              else none
          else none) :=
  ⟨simpleCfgOf, C7_portfolioAtRetirement simpleArgs simpleCfg simpleCfgOf⟩

/-- C8: in every period of every run, growth is applied strictly after that
period's cash flow: each bucket's end-of-period balance (the value summed
into `end_bal`) equals its post-cash-flow clamped balance multiplied by
`1 + monthlyRate[class]`, where for every breakdown class the stored monthly
rate is `(1 + annualRate)^(1/12) - 1`; when the pre-flow total is not
positive the cash flow is skipped and growth applies to the untouched
balance. -/
theorem C8_growth_after_cashflow (args : Args ℝ) (cfg : Config ℝ)
    (hcfg : cfgOf ann_to_monthly args = .ok cfg) (n : ℕ) (k : String) (b : ℝ)
    (hmem : (k, b) ∈ (stateAt cfg n).byAsset) :
    (0 < totalBalance (stateAt cfg n).byAsset →
      lookupKV (postGrowth cfg (stateAt cfg n) n) k
        = some (max 0 (b
            + (contribWd cfg (stateAt cfg n) n).1
              * (b / totalBalance (stateAt cfg n).byAsset)
            - (contribWd cfg (stateAt cfg n) n).2.1
              * (b / totalBalance (stateAt cfg n).byAsset))
            * (1 + (lookupKV cfg.assetMret k).getD 0)))
    ∧ (¬0 < totalBalance (stateAt cfg n).byAsset →
      lookupKV (postGrowth cfg (stateAt cfg n) n) k
        = some (b * (1 + (lookupKV cfg.assetMret k).getD 0)))
    ∧ endBalOf cfg (stateAt cfg n) n = totalBalance (postGrowth cfg (stateAt cfg n) n)
    ∧ (∀ rk, lookupKV ASSET_KEY_TO_RETURN k = some rk →
        lookupKV cfg.assetMret k
          = some ((1 + (assumptionsGet args.assumptions rk).getD 0 / 100)
              ^ ((1 : ℝ) / 12) - 1)) := by
  obtain ⟨mret, hb, rfl⟩ := cfgOf_ok_elim hcfg
  have hnd : ((stateAt (mkConfig args mret) n).byAsset.map Prod.fst).Nodup := by
    rw [stateAt_keys]
    exact (mkConfig_keysOK args mret).2
  have hlb : lookupKV (stateAt (mkConfig args mret) n).byAsset k = some b :=
    mem_lookupKV_of_nodup hnd hmem
  have hk_in : k ∈ args.portfolioBreakdown.map Prod.fst := by
    apply pyDict_keys_sub
    have h1 : k ∈ (stateAt (mkConfig args mret) n).byAsset.map Prod.fst :=
      List.mem_map.mpr ⟨(k, b), hmem, rfl⟩
    rw [stateAt_keys, mkConfig_targetWeights, map_fst_pair] at h1
    exact h1
  refine ⟨?_, ?_, rfl, ?_⟩
  · intro hpos
    unfold postGrowth
    rw [lookupKV_applyGrowth]
    unfold postCashFlow
    rw [lookupKV_applyCashFlow hpos hlb]
    rfl
  · intro hpos
    unfold postGrowth
    rw [lookupKV_applyGrowth]
    unfold postCashFlow
    rw [lookupKV_applyCashFlow_skip hpos, hlb]
    rfl
  · intro rk hrk
    obtain ⟨rk2, hrk2, hlook⟩ := buildAssetMret_lookup args.portfolioBreakdown [] mret
      hb (by intro k2 v h2; simp [lookupKV] at h2) k (Or.inl hk_in)
    rw [hrk] at hrk2
    injection hrk2 with h3
    rw [mkConfig_assetMret, hlook, ← h3]
    rfl

theorem C8_growth_after_cashflow_witness :
    cfgOf ann_to_monthly simpleArgs = .ok simpleCfg
    ∧ ("equity", (100 : ℝ)) ∈ (stateAt simpleCfg 0).byAsset
    ∧ endBalOf simpleCfg (stateAt simpleCfg 0) 0
        = totalBalance (postGrowth simpleCfg (stateAt simpleCfg 0) 0) := by
  have hmem : ("equity", (100 : ℝ)) ∈ (stateAt simpleCfg 0).byAsset := by
    show ("equity", (100 : ℝ)) ∈ [("equity", (100 : ℝ))]
    simp
  exact ⟨simpleCfgOf, hmem,
    (C8_growth_after_cashflow simpleArgs simpleCfg simpleCfgOf 0 "equity" 100
      hmem).2.2.1⟩

theorem C10_balances_nonneg_witness :
    cfgOf ann_to_monthly simpleArgs = .ok simpleCfg
    ∧ (∀ kv ∈ simpleArgs.portfolioBreakdown, 0 ≤ kv.2)
    ∧ ReturnsAboveNeg100 simpleArgs.assumptions
    ∧ (∀ kv ∈ (stateAt simpleCfg 0).byAsset, 0 ≤ kv.2) := by
  have hret : ReturnsAboveNeg100 simpleArgs.assumptions := by
    intro k v h
    rw [show simpleArgs.assumptions = simpleAssum from rfl, simpleAssum_get] at h
    exact absurd h (by simp)
  exact ⟨simpleCfgOf, simpleArgs_breakdown_nonneg, hret,
    (C10_balances_nonneg simpleArgs simpleCfg simpleCfgOf
      simpleArgs_breakdown_nonneg hret 0).1⟩

end Longevity
